import Mathlib

/-!
# Verification of the multi-tool security-scanner normalization and comparison engine

This file gives a shallow embedding, in Lean, of the normalization and
comparison core of the scanner aggregation system:

* `src/parsers/normalizer.js`   — `normalizeAlert`, `mapSeverityToCodeQL`, `createFingerprint`
* `src/comparison/analyzer.js`  — `findOverlap`, `calculateEffectiveness`,
  `analyzeBySeverity`, `analyzeByCategory`, `extractCategory`
* `src/parsers/semgrep-parser.js`, `src/parsers/snyk-parser.js`,
  `src/parsers/eslint-parser.js`, `src/parsers/sonarqube-parser.js` — adapters

JavaScript conventions are modelled explicitly:

* `undefined`/`null` field values become `Option`; the two are conflated
  (no piece of the embedded code distinguishes them).
* `a || b` on strings is `jsOrStr`/`jsOrStrD` (the empty string is falsy),
  on numbers `jsOrInt` (`0` is falsy).
* `String.prototype.includes` is `jsIncludes`; one-occurrence
  `String.prototype.replace` with a plain-string pattern is `jsReplaceFirst`;
  string concatenation with a possibly-`undefined` operand is `jsAdd`
  (JavaScript renders `undefined` as the text `undefined`).
* `Array.prototype.join` stringifies `null`/`undefined` elements to the
  empty string (`jsStr`, `jsLineStr`).
* A thrown `TypeError` is modelled with `Except String`; the error text is a
  label for the fault, not the verbatim engine message.
* Number arithmetic is modelled over `ℚ`; `Number.prototype.toFixed(2)` is
  `toFixed2` (rounding to the nearest hundredth — the binary-double tie
  noise of the real `toFixed` is abstracted away; no value considered here
  sits on a tie).
-/

set_option autoImplicit false
set_option maxHeartbeats 1000000

namespace MultiTool

/-! ## JavaScript value helpers -/

/-- Stringification of a possibly absent string, as done by `Array.prototype.join`
(`null`/`undefined` become the empty string). -/
def jsStr : Option String → String
  | none => ""
  | some s => s

/-- Stringification of a possibly absent number, as done by `Array.prototype.join`. -/
def jsLineStr : Option Int → String
  | none => ""
  | some n => toString n

/-- JavaScript truthiness of a possibly absent string (`undefined`, `null` and
`""` are falsy). -/
def strTruthy : Option String → Bool
  | none => false
  | some s => decide (s ≠ "")

/-- `a || b` on possibly absent strings. -/
def jsOrStr : Option String → Option String → Option String
  | some s, b => if s = "" then b else some s
  | none, b => b

/-- `a || d` on a possibly absent string with a present default. -/
def jsOrStrD : Option String → String → String
  | some s, d => if s = "" then d else s
  | none, d => d

/-- `a || b` on possibly absent numbers (`0` is falsy). -/
def jsOrInt : Option Int → Option Int → Option Int
  | some n, b => if n = 0 then b else some n
  | none, b => b

/-- String concatenation `a + t` where `a` may be `undefined` (JavaScript
renders `undefined` as the literal text `undefined`). -/
def jsAdd : Option String → String → String
  | some s, t => s ++ t
  | none, t => "undefined" ++ t

/-- `s.toLowerCase()` (ASCII case folding, like Lean's own lower-casing;
defined structurally so that the kernel can evaluate it). -/
def jsToLower (s : String) : String := ⟨s.data.map Char.toLower⟩

/-- `s.toUpperCase()` (ASCII case folding). -/
def jsToUpper (s : String) : String := ⟨s.data.map Char.toUpper⟩

/-- Does `pat` occur at the head of the text? -/
def charsLeads : List Char → List Char → Bool
  | [], _ => true
  | _ :: _, [] => false
  | p :: ps, c :: cs => p == c && charsLeads ps cs

/-- Split a character list around the first occurrence of `pat`: the text
before and after that occurrence, or `none` when `pat` does not occur. -/
def charsFindSplit : List Char → List Char → Option (List Char × List Char)
  | [], pat => if pat.isEmpty then some ([], []) else none
  | c :: cs, pat =>
    if charsLeads pat (c :: cs) then some ([], (c :: cs).drop pat.length)
    else
      match charsFindSplit cs pat with
      | some (pre, post) => some (c :: pre, post)
      | none => none

/-- `s.includes(pat)`. -/
def jsIncludes (s pat : String) : Bool := (charsFindSplit s.data pat.data).isSome

/-- `s.replace(pat, rep)` with a plain-string pattern: replaces the first
occurrence only, and returns the string unchanged when `pat` does not occur. -/
def jsReplaceFirst (s pat rep : String) : String :=
  match charsFindSplit s.data pat.data with
  | some (pre, post) => String.mk pre ++ rep ++ String.mk post
  | none => s

/-- Label for the `TypeError` thrown when `.toLowerCase()` is called on
`undefined`/`null`. -/
def undefinedToLowerError : String := "TypeError: toLowerCase of undefined"

/-- Label for the `TypeError` thrown when `.replace()` is called on
`undefined`. -/
def undefinedReplaceError : String := "TypeError: replace of undefined"

/-- The model of `array.map(f)` when `f` can throw: element-by-element, the
first fault aborts the whole map. -/
def mapExcept {α β ε : Type} (f : α → Except ε β) : List α → Except ε (List β)
  | [] => .ok []
  | a :: as => do
    let b ← f a
    let bs ← mapExcept f as
    .ok (b :: bs)

/-! ## Data model

`Location`, `Finding` (an adapter's output record) and `Alert` (the
normalizer's output record, which also stands for the stored alerts fed to
the comparison analyzer). Fields that a particular adapter never sets are
`none`/`[]` — indistinguishable from `undefined` for all embedded code. -/

structure Location where
  path : Option String
  start_line : Option Int
  end_line : Option Int
  start_column : Option Int
  end_column : Option Int
deriving DecidableEq

structure Finding where
  rule_id : Option String
  rule_description : Option String
  severity : String
  category : String
  message : Option String
  location : Location
  code_snippet : Option String
  confidence : String
  cwe : List String
  owasp : List String
  references : List String
  fix : Option String
deriving DecidableEq

structure AlertMetadata where
  confidence : Option String
  cwe : List String
  owasp : List String
  references : List String
  code_snippet : Option String
deriving DecidableEq

structure Alert where
  tool_name : String
  rule_id : Option String
  rule_description : Option String
  severity : String
  security_severity : String
  state : String
  location : Location
  message : Option String
  category : Option String
  metadata : AlertMetadata
deriving DecidableEq

/-! ## `src/parsers/normalizer.js` -/

/-- `ResultNormalizer.mapSeverityToCodeQL` (normalizer.js lines 41-50). -/
def mapSeverityToCodeQL (severity : String) : String :=
  if severity = "critical" then "error"
  else if severity = "high" then "error"
  else if severity = "medium" then "warning"
  else if severity = "low" then "note"
  else "warning"

/-- `ResultNormalizer.normalizeAlert` (normalizer.js lines 11-36). -/
def normalizeAlert (finding : Finding) (toolName : String) : Alert :=
  { tool_name := toolName
    rule_id := finding.rule_id
    rule_description := jsOrStr finding.rule_description finding.message
    severity := mapSeverityToCodeQL finding.severity
    security_severity := finding.severity
    state := "open"
    location := finding.location
    message := finding.message
    category := some (if finding.category = "" then "Other" else finding.category)
    metadata :=
      { confidence := some finding.confidence
        cwe := finding.cwe
        owasp := finding.owasp
        references := finding.references
        code_snippet := finding.code_snippet } }

/-- `ResultNormalizer.createFingerprint` (normalizer.js lines 80-89):
`[rule_id, location.path, location.start_line, category].join('::')`. -/
def createFingerprint (alert : Alert) : String :=
  String.intercalate "::"
    [jsStr alert.rule_id, jsStr alert.location.path,
     jsLineStr alert.location.start_line, jsStr alert.category]

/-! ## `src/comparison/analyzer.js` -/

/-- A value of the analyzer's `fingerprints[fp]` table (analyzer.js lines 26-35). -/
structure Group where
  fingerprint : String
  alert : Alert
  detectedBy : List String
deriving DecidableEq

structure OverlapResult where
  overlap : List Group
  unique : List Group
  total : Nat
deriving DecidableEq

/-- One iteration of `findOverlap`'s inner loop (analyzer.js lines 23-35): fold a
single `(toolName, alert)` occurrence into the fingerprint table. The table is
an insertion-ordered association list, exactly like a JavaScript object whose
keys (fingerprints always contain `::`) are never array indices. -/
def addAlert (st : List Group) (toolName : String) (alert : Alert) : List Group :=
  if st.any (fun g => g.fingerprint == createFingerprint alert) then
    st.map (fun g =>
      if g.fingerprint == createFingerprint alert then
        { g with detectedBy := g.detectedBy ++ [toolName] }
      else g)
  else
    st ++ [{ fingerprint := createFingerprint alert, alert := alert, detectedBy := [toolName] }]

/-- `findOverlap`'s outer loop over one `(toolName, alerts)` entry. -/
def foldAlerts (st : List Group) (entry : String × List Alert) : List Group :=
  entry.2.foldl (fun s a => addAlert s entry.1 a) st

/-- `ComparisonAnalyzer.findOverlap` (analyzer.js lines 18-47). `toolResults` is
the entry list of the `findingsByTool` object (keys are distinct tool names). -/
def findOverlap (toolResults : List (String × List Alert)) : OverlapResult :=
  let st := toolResults.foldl foldAlerts []
  { overlap := st.filter (fun g => decide (1 < g.detectedBy.length))
    unique := st.filter (fun g => g.detectedBy.length == 1)
    total := st.length }

/-- `Number.prototype.toFixed(2)`, read back as a number: rounding to the
nearest hundredth. -/
def toFixed2 (q : ℚ) : ℚ := (round (q * 100) : ℚ) / 100

/-- The per-tool metrics record built by `calculateEffectiveness`. In the
JavaScript, `uniqueness_rate` holds the string produced by `toFixed(2)` when
`total_detections > 0` and the number `0` otherwise; both are modelled as the
rational they denote. -/
structure ToolMetrics where
  total_detections : Nat
  unique_detections : Nat
  shared_detections : Nat
  uniqueness_rate : ℚ
deriving DecidableEq

/-- `ComparisonAnalyzer.calculateEffectiveness` (analyzer.js lines 52-73). -/
def calculateEffectiveness (toolResults : List (String × List Alert))
    (overlapData : OverlapResult) : List (String × ToolMetrics) :=
  toolResults.map (fun entry =>
    let totalDetections := entry.2.length
    let uniqueDetections :=
      (overlapData.unique.filter (fun u => u.detectedBy.head? == some entry.1)).length
    let sharedDetections :=
      (overlapData.overlap.filter (fun o => o.detectedBy.contains entry.1)).length
    (entry.1,
      { total_detections := totalDetections
        unique_detections := uniqueDetections
        shared_detections := sharedDetections
        uniqueness_rate :=
          if 0 < totalDetections then
            toFixed2 ((uniqueDetections : ℚ) / (totalDetections : ℚ) * 100)
          else 0 }))

structure SeverityCounts where
  critical : Nat
  high : Nat
  medium : Nat
  low : Nat
deriving DecidableEq

/-- `ComparisonAnalyzer.analyzeBySeverity` (analyzer.js lines 78-91): counts
read the canonical `security_severity` field. -/
def analyzeBySeverity (toolResults : List (String × List Alert)) :
    List (String × SeverityCounts) :=
  toolResults.map (fun entry =>
    (entry.1,
      { critical := (entry.2.filter (fun a => a.security_severity == "critical")).length
        high := (entry.2.filter (fun a => a.security_severity == "high")).length
        medium := (entry.2.filter (fun a => a.security_severity == "medium")).length
        low := (entry.2.filter (fun a => a.security_severity == "low")).length }))

/-- `alert.category || 'Other'` (analyzer.js line 103). -/
def jsCategory (alert : Alert) : String := jsOrStrD alert.category "Other"

/-- `byCategory[toolName][category] = (byCategory[toolName][category] || 0) + 1`
(analyzer.js line 104) on an insertion-ordered object. -/
def bump (acc : List (String × Nat)) (key : String) : List (String × Nat) :=
  if acc.any (fun p => p.1 == key) then
    acc.map (fun p => if p.1 == key then (p.1, p.2 + 1) else p)
  else
    acc ++ [(key, 1)]

/-- The per-tool body of `analyzeByCategory` (analyzer.js lines 100-105). -/
def categoryCounts (alerts : List Alert) : List (String × Nat) :=
  alerts.foldl (fun acc a => bump acc (jsCategory a)) []

/-- `ComparisonAnalyzer.analyzeByCategory` (analyzer.js lines 96-109). -/
def analyzeByCategory (toolResults : List (String × List Alert)) :
    List (String × List (String × Nat)) :=
  toolResults.map (fun entry => (entry.1, categoryCounts entry.2))

/-- First-match lookup in an insertion-ordered count table (JavaScript property
read `obj[key]`, `none` for an absent property). -/
def lookupStr (key : String) : List (String × Nat) → Option Nat
  | [] => none
  | p :: ps => if p.1 = key then some p.2 else lookupStr key ps

/-- `ComparisonAnalyzer.extractCategory` (analyzer.js lines 151-165): an
existing truthy `category` is returned as is; otherwise keywords are matched
against the lower-cased `rule_id` alone. -/
def extractCategory (alert : Alert) : String :=
  if strTruthy alert.category then jsStr alert.category
  else
    let ruleId := jsToLower (jsStr alert.rule_id)
    if jsIncludes ruleId "xss" then "XSS"
    else if jsIncludes ruleId "sql" then "SQL Injection"
    else if jsIncludes ruleId "command" then "Command Injection"
    else if jsIncludes ruleId "path" then "Path Traversal"
    else if jsIncludes ruleId "csrf" then "CSRF"
    else if jsIncludes ruleId "ssrf" then "SSRF"
    else "Other"

/-! ## Shared parse-result shapes

Every parser returns either the failure record
`{success: false, error, findings: []}` or the full record with statistics;
the statistics block is computed by identical inline code in each parser. -/

structure ScanStats where
  total_findings : Nat
  by_severity : SeverityCounts
  by_category : List (String × Nat)
deriving DecidableEq

/-- The statistics block each parser computes inline over its findings list
(e.g. semgrep-parser.js lines 93-107). -/
def computeStats (findings : List Finding) : ScanStats :=
  { total_findings := findings.length
    by_severity :=
      { critical := (findings.filter (fun f => f.severity == "critical")).length
        high := (findings.filter (fun f => f.severity == "high")).length
        medium := (findings.filter (fun f => f.severity == "medium")).length
        low := (findings.filter (fun f => f.severity == "low")).length }
    by_category := findings.foldl (fun acc f => bump acc f.category) [] }

structure ParsedResult where
  success : Bool
  error : Option String
  tool_name : Option String
  tool_version : Option String
  repository : Option String
  repository_path : Option String
  scan_date : Option String
  scan_duration_ms : Option Int
  findings : List Finding
  stats : Option ScanStats
deriving DecidableEq

/-- The `{success: false, error: scanOutput.error, findings: []}` record. -/
def failedParse (err : Option String) : ParsedResult :=
  { success := false, error := err, tool_name := none, tool_version := none
    repository := none, repository_path := none, scan_date := none
    scan_duration_ms := none, findings := [], stats := none }

/-- The record a scanner hands to its parser (scan metadata plus the
tool-specific raw payload `ρ`). -/
structure ScanOutput (ρ : Type) where
  success : Bool
  error : Option String
  tool_name : Option String
  tool_version : Option String
  repository : Option String
  repository_path : Option String
  scan_date : Option String
  scan_duration_ms : Option Int
  raw_output : Option ρ
deriving DecidableEq

/-! ## `src/parsers/semgrep-parser.js` -/

structure SemgrepPos where
  line : Option Int
  col : Option Int
deriving DecidableEq

/-- `result.extra.metadata`. The `cwe`/`owasp`/`references` arrays are read
through `|| []`, which cannot tell an absent array from an empty one, so they
are plain lists here. -/
structure SemgrepMetadata where
  shortDescription : Option String
  confidence : Option String
  cwe : List String
  owasp : List String
  references : List String
deriving DecidableEq

structure SemgrepExtra where
  message : Option String
  severity : Option String
  metadata : Option SemgrepMetadata
  lines : Option String
deriving DecidableEq

/-- A raw Semgrep result record. `stop` models the JSON field `end`
(a Lean keyword). -/
structure SemgrepResult where
  check_id : Option String
  path : Option String
  start : Option SemgrepPos
  stop : Option SemgrepPos
  extra : Option SemgrepExtra
deriving DecidableEq

structure SemgrepRawOutput where
  results : Option (List SemgrepResult)
deriving DecidableEq

/-- `SemgrepParser.normalizeSeverity` (semgrep-parser.js lines 10-18). -/
def semgrepNormalizeSeverity (semgrepSeverity : Option String) : String :=
  match semgrepSeverity with
  | none => "medium"
  | some s =>
    let u := jsToUpper s
    if u = "ERROR" then "critical"
    else if u = "WARNING" then "high"
    else if u = "INFO" then "medium"
    else "medium"

/-- First-match scan of an ordered `(keyword, category)` table against one
lower-cased haystack — the parsers' `for (const [key, value] of
Object.entries(categories))` loop with a single `includes` test. -/
def scanCategories1 : List (String × String) → String → String
  | [], _ => "Other"
  | (key, value) :: rest, r => if jsIncludes r key then value else scanCategories1 rest r

/-- First-match scan of an ordered `(keyword, category)` table against two
lower-cased haystacks (rule id or message). -/
def scanCategories2 : List (String × String) → String → String → String
  | [], _, _ => "Other"
  | (key, value) :: rest, r, m =>
    if jsIncludes r key || jsIncludes m key then value else scanCategories2 rest r m

/-- The `categories` table of `SemgrepParser.extractCategory`
(semgrep-parser.js lines 24-37), in object-literal insertion order. -/
def semgrepCategories : List (String × String) :=
  [("xss", "XSS"), ("sql-injection", "SQL Injection"), ("sqli", "SQL Injection"),
   ("command-injection", "Command Injection"), ("path-traversal", "Path Traversal"),
   ("ssrf", "SSRF"), ("csrf", "CSRF"), ("hardcoded", "Hardcoded Credentials"),
   ("deserialization", "Insecure Deserialization"), ("auth", "Auth Flaws"),
   ("crypto", "Cryptography"), ("regex", "ReDoS")]

/-- `SemgrepParser.extractCategory` (semgrep-parser.js lines 23-48), on a
present rule id. -/
def semgrepExtractCategory (ruleId : String) : String :=
  scanCategories1 semgrepCategories (jsToLower ruleId)

/-- `SemgrepParser.parseResult` (semgrep-parser.js lines 53-73). When
`result.check_id` is absent, `extractCategory(result.check_id)` dereferences
`undefined` and the call throws. -/
def semgrepParseResult (result : SemgrepResult) (_repositoryName : Option String) :
    Except String Finding :=
  match result.check_id with
  | none => .error undefinedToLowerError
  | some checkId =>
    .ok
      { rule_id := some checkId
        rule_description :=
          jsOrStr (result.extra.bind (·.message))
            (jsOrStr ((result.extra.bind (·.metadata)).bind (·.shortDescription)) none)
        severity := semgrepNormalizeSeverity (result.extra.bind (·.severity))
        category := semgrepExtractCategory checkId
        message := some (jsOrStrD (result.extra.bind (·.message)) "Security issue detected")
        location :=
          { path := result.path
            start_line := jsOrInt (result.start.bind (·.line)) none
            end_line := jsOrInt (result.stop.bind (·.line)) none
            start_column := jsOrInt (result.start.bind (·.col)) none
            end_column := jsOrInt (result.stop.bind (·.col)) none }
        code_snippet := jsOrStr (result.extra.bind (·.lines)) none
        confidence := jsOrStrD ((result.extra.bind (·.metadata)).bind (·.confidence)) "MEDIUM"
        cwe := ((result.extra.bind (·.metadata)).map (·.cwe)).getD []
        owasp := ((result.extra.bind (·.metadata)).map (·.owasp)).getD []
        references := ((result.extra.bind (·.metadata)).map (·.references)).getD []
        fix := none }

/-- `SemgrepParser.parse` (semgrep-parser.js lines 78-120). There is no
try/catch: a `TypeError` raised while mapping `parseResult` propagates. -/
def semgrepParse (scanOutput : ScanOutput SemgrepRawOutput) : Except String ParsedResult :=
  if !scanOutput.success then
    .ok (failedParse scanOutput.error)
  else do
    let rawResults := (scanOutput.raw_output.bind (·.results)).getD []
    let findings ← mapExcept (fun r => semgrepParseResult r scanOutput.repository) rawResults
    .ok
      { success := true
        error := none
        tool_name := scanOutput.tool_name
        tool_version := scanOutput.tool_version
        repository := scanOutput.repository
        repository_path := scanOutput.repository_path
        scan_date := scanOutput.scan_date
        scan_duration_ms := scanOutput.scan_duration_ms
        findings := findings
        stats := some (computeStats findings) }

/-! ## `src/parsers/snyk-parser.js` -/

structure SnykSnippet where
  text : Option String
deriving DecidableEq

structure SnykRegion where
  startLine : Option Int
  endLine : Option Int
  startColumn : Option Int
  endColumn : Option Int
  snippet : Option SnykSnippet
deriving DecidableEq

structure SnykArtifactLocation where
  uri : Option String
deriving DecidableEq

structure SnykPhysicalLocation where
  artifactLocation : Option SnykArtifactLocation
  region : Option SnykRegion
deriving DecidableEq

structure SnykLocation where
  physicalLocation : Option SnykPhysicalLocation
deriving DecidableEq

structure SnykMessage where
  text : Option String
deriving DecidableEq

structure SnykProperties where
  cwe : List String
  references : List String
deriving DecidableEq

structure SnykResult where
  ruleId : Option String
  message : Option SnykMessage
  level : Option String
  locations : Option (List SnykLocation)
  properties : Option SnykProperties
deriving DecidableEq

/-- `SnykParser.normalizeSeverity` (snyk-parser.js lines 11-22). -/
def snykNormalizeSeverity (snykSeverity : Option String) : String :=
  match snykSeverity with
  | none => "medium"
  | some s =>
    let l := jsToLower s
    if l = "error" then "high"
    else if l = "warning" then "medium"
    else if l = "note" then "low"
    else if l = "high" then "high"
    else if l = "medium" then "medium"
    else if l = "low" then "low"
    else "medium"

/-- The `categories` table of `SnykParser.extractCategory` (snyk-parser.js
lines 28-45), in object-literal insertion order. -/
def snykCategories : List (String × String) :=
  [("sql", "SQL Injection"), ("xss", "XSS"), ("injection", "Code Injection"),
   ("command", "Command Injection"), ("path", "Path Traversal"),
   ("traversal", "Path Traversal"), ("ssrf", "SSRF"), ("csrf", "CSRF"),
   ("hardcoded", "Hardcoded Credentials"), ("password", "Hardcoded Credentials"),
   ("secret", "Hardcoded Credentials"), ("deserialization", "Insecure Deserialization"),
   ("crypto", "Cryptography"), ("auth", "Auth Flaws"),
   ("session", "Session Management"), ("redirect", "Open Redirect")]

/-- `SnykParser.extractCategory` (snyk-parser.js lines 27-57); each keyword is
matched in the rule id or in the message. -/
def snykExtractCategory (ruleId message : String) : String :=
  scanCategories2 snykCategories (jsToLower ruleId) (jsToLower message)

/-- `SnykParser.parseResult` (snyk-parser.js lines 62-89). Total: every raw
field is read behind a guard or default. -/
def snykParseResult (result : SnykResult) (_repositoryName : Option String)
    (repositoryPath : Option String) : Finding :=
  let rule := jsOrStrD result.ruleId "unknown"
  let message := jsOrStrD (result.message.bind (·.text)) "Security issue detected"
  let level := jsOrStrD result.level "warning"
  let location := (result.locations.bind (·.head?)).bind (·.physicalLocation)
  let filePath := jsOrStrD ((location.bind (·.artifactLocation)).bind (·.uri)) ""
  let region := location.bind (·.region)
  { rule_id := some rule
    rule_description := some message
    severity := snykNormalizeSeverity (some level)
    category := snykExtractCategory rule message
    message := some message
    location :=
      { path := some (jsReplaceFirst filePath (jsAdd repositoryPath "/") "")
        start_line := jsOrInt (region.bind (·.startLine)) none
        end_line := jsOrInt (region.bind (·.endLine)) (jsOrInt (region.bind (·.startLine)) none)
        start_column := jsOrInt (region.bind (·.startColumn)) none
        end_column := jsOrInt (region.bind (·.endColumn)) none }
    code_snippet := jsOrStr ((region.bind (·.snippet)).bind (·.text)) none
    confidence := "HIGH"
    cwe := (result.properties.map (·.cwe)).getD []
    owasp := []
    references := (result.properties.map (·.references)).getD []
    fix := none }

/-! ## `src/parsers/eslint-parser.js` -/

/-- A raw ESLint message. `fix` records the truthiness of `message.fix`. -/
structure ESLintMessage where
  ruleId : Option String
  severity : Option Int
  message : Option String
  line : Option Int
  endLine : Option Int
  column : Option Int
  endColumn : Option Int
  fix : Bool
deriving DecidableEq

structure ESLintFileResult where
  filePath : Option String
  messages : List ESLintMessage
deriving DecidableEq

/-- `ESLintParser.normalizeSeverity` (eslint-parser.js lines 10-28). -/
def eslintNormalizeSeverity (eslintSeverity : Option Int) (ruleId : Option String) : String :=
  let criticalRules : List String :=
    ["security/detect-eval-with-expression", "security/detect-unsafe-regex",
     "security/detect-buffer-noassert", "security/detect-pseudoRandomBytes",
     "no-unsanitized/method", "no-unsanitized/property"]
  if (match ruleId with | some r => criticalRules.contains r | none => false) then "high"
  else if eslintSeverity == some 2 then "high"
  else "medium"

/-- The `categoryMap` table of `ESLintParser.extractCategory`
(eslint-parser.js lines 34-44), in object-literal insertion order. -/
def eslintCategories : List (String × String) :=
  [("eval", "Code Injection"), ("child-process", "Command Injection"),
   ("regex", "ReDoS"), ("csrf", "CSRF"), ("timing", "Timing Attack"),
   ("crypto", "Cryptography"), ("unsanitized", "XSS"),
   ("object-injection", "Injection"), ("require", "Path Traversal")]

/-- `ESLintParser.extractCategory` (eslint-parser.js lines 33-53), on a present
rule id (the JavaScript lower-cases the rule id inside the loop; hoisting the
lower-casing out is equivalent). -/
def eslintExtractCategory (ruleId : String) : String :=
  scanCategories1 eslintCategories (jsToLower ruleId)

/-- `ESLintParser.getRuleDescription` (eslint-parser.js lines 81-100). -/
def eslintGetRuleDescription (ruleId : String) : String :=
  if ruleId = "security/detect-object-injection" then
    "Bracket object notation with user input is potentially unsafe"
  else if ruleId = "security/detect-non-literal-regexp" then
    "RegExp constructed from non-literal input"
  else if ruleId = "security/detect-unsafe-regex" then
    "Potentially unsafe regular expression (ReDoS)"
  else if ruleId = "security/detect-buffer-noassert" then
    "Buffer allocation without proper assertion"
  else if ruleId = "security/detect-child-process" then
    "Child process execution detected"
  else if ruleId = "security/detect-disable-mustache-escape" then
    "Mustache escaping disabled"
  else if ruleId = "security/detect-eval-with-expression" then
    "Eval with expression detected"
  else if ruleId = "security/detect-no-csrf-before-method-override" then
    "CSRF middleware not before method override"
  else if ruleId = "security/detect-non-literal-fs-filename" then
    "Non-literal filesystem path"
  else if ruleId = "security/detect-non-literal-require" then
    "Non-literal require statement"
  else if ruleId = "security/detect-possible-timing-attacks" then
    "Possible timing attack vulnerability"
  else if ruleId = "security/detect-pseudoRandomBytes" then
    "Use of pseudo-random bytes for security"
  else if ruleId = "no-unsanitized/method" then
    "Unsanitized method call (potential XSS)"
  else if ruleId = "no-unsanitized/property" then
    "Unsanitized property assignment (potential XSS)"
  else ruleId

/-- `ESLintParser.parseMessage` (eslint-parser.js lines 58-76). A `null`
`ruleId` (ESLint emits one for fatal parse errors) makes
`extractCategory(message.ruleId)` throw. -/
def eslintParseMessage (message : ESLintMessage) (filePath : String)
    (_repositoryName : Option String) : Except String Finding :=
  match message.ruleId with
  | none => .error undefinedToLowerError
  | some rid =>
    .ok
      { rule_id := some rid
        rule_description := some (eslintGetRuleDescription rid)
        severity := eslintNormalizeSeverity message.severity (some rid)
        category := eslintExtractCategory rid
        message := message.message
        location :=
          { path := some filePath
            start_line := message.line
            end_line := jsOrInt message.endLine message.line
            start_column := message.column
            end_column := jsOrInt message.endColumn message.column }
        code_snippet := none
        confidence := "HIGH"
        cwe := []
        owasp := []
        references := []
        fix := if message.fix then some "available" else none }

/-- `ESLintParser.parse` (eslint-parser.js lines 105-153). No try/catch: a
missing `filePath` (`.replace` on `undefined`) or a `null` `ruleId` propagates
as a fault. -/
def eslintParse (scanOutput : ScanOutput (List ESLintFileResult)) :
    Except String ParsedResult :=
  if !scanOutput.success then
    .ok (failedParse scanOutput.error)
  else do
    let rawResults := scanOutput.raw_output.getD []
    let findingLists ← mapExcept (fun fileResult =>
      match fileResult.filePath with
      | none => .error undefinedReplaceError
      | some fp =>
        let relativePath := jsReplaceFirst fp (jsAdd scanOutput.repository_path "/") ""
        mapExcept (fun m => eslintParseMessage m relativePath scanOutput.repository)
          fileResult.messages) rawResults
    let findings := findingLists.flatten
    .ok
      { success := true
        error := none
        tool_name := scanOutput.tool_name
        tool_version := scanOutput.tool_version
        repository := scanOutput.repository
        repository_path := scanOutput.repository_path
        scan_date := scanOutput.scan_date
        scan_duration_ms := scanOutput.scan_duration_ms
        findings := findings
        stats := some (computeStats findings) }

/-! ## `src/parsers/sonarqube-parser.js` (category classifier) -/

/-- The `categories` table of `SonarQubeParser.extractCategory`
(sonarqube-parser.js lines 26-45), in object-literal insertion order. -/
def sonarCategories : List (String × String) :=
  [("sql", "SQL Injection"), ("xss", "XSS"), ("injection", "Code Injection"),
   ("command", "Command Injection"), ("path", "Path Traversal"),
   ("traversal", "Path Traversal"), ("ssrf", "SSRF"), ("csrf", "CSRF"),
   ("password", "Hardcoded Credentials"), ("secret", "Hardcoded Credentials"),
   ("hardcoded", "Hardcoded Credentials"), ("deserialization", "Insecure Deserialization"),
   ("crypto", "Cryptography"), ("auth", "Auth Flaws"),
   ("session", "Session Management"), ("redirect", "Open Redirect"),
   ("xxe", "XXE"), ("ldap", "LDAP Injection")]

/-- `SonarQubeParser.extractCategory` (sonarqube-parser.js lines 25-57); each
keyword is matched in the rule key or in the message. -/
def sonarExtractCategory (rule message : String) : String :=
  scanCategories2 sonarCategories (jsToLower rule) (jsToLower message)

/-! ## Spec-side definitions

These two definitions follow the specification's words, not the source; they
exist only to be compared with the code-derived definitions above. -/

/-- The specification's fixed 14-value category vocabulary (spec §3). -/
def vocabulary14 : List String :=
  ["XSS", "SQL Injection", "Command Injection", "Path Traversal", "SSRF", "CSRF",
   "Hardcoded Credentials", "Insecure Deserialization", "Cryptography", "Auth Flaws",
   "Session Management", "Open Redirect", "ReDoS", "Other"]

/-- Modelled from the spec: `classifyCategory(ruleId, message, existingCategory?)`
(spec §4.2), instantiated with the analyzer's ordered keyword list: it matches
case-insensitively against the concatenation of `ruleId` and `message`. -/
def specClassifyCategory (ruleId message : String) (existingCategory : Option String) : String :=
  if strTruthy existingCategory then jsStr existingCategory
  else
    let haystack := jsToLower (ruleId ++ message)
    if jsIncludes haystack "xss" then "XSS"
    else if jsIncludes haystack "sql" then "SQL Injection"
    else if jsIncludes haystack "command" then "Command Injection"
    else if jsIncludes haystack "path" then "Path Traversal"
    else if jsIncludes haystack "csrf" then "CSRF"
    else if jsIncludes haystack "ssrf" then "SSRF"
    else "Other"

/-! ## Views of the fingerprint table used by the theorems -/

/-- The `(toolName, alert)` occurrences of a `findingsByTool` entry list, in
iteration order. -/
def flattenTools (toolResults : List (String × List Alert)) : List (String × Alert) :=
  toolResults.flatMap (fun entry => entry.2.map (fun a => (entry.1, a)))

/-- The fingerprints of all finding occurrences, duplicates included. -/
def occurrenceFps (toolResults : List (String × List Alert)) : List String :=
  (flattenTools toolResults).map (fun pr => createFingerprint pr.2)

/-- The owning tools of the occurrences carrying fingerprint `f`, in order,
duplicates included. -/
def toolsFor (l : List (String × Alert)) (f : String) : List String :=
  (l.filter (fun pr => createFingerprint pr.2 == f)).map Prod.fst

/-- First (and, by `Nodup`, only) group of a fingerprint table with the given
fingerprint. -/
def findGroup (st : List Group) (f : String) : Option Group :=
  st.find? (fun g => g.fingerprint == f)

/-- The fingerprints of a list of groups. -/
def groupFps (gs : List Group) : List String := gs.map (·.fingerprint)

/-- Empty metadata block for test fixtures. -/
def mdEmpty : AlertMetadata := ⟨none, [], [], [], none⟩

/-- Test-fixture alert with the given identity-tuple fields. -/
def mkAlert (rid : Option String) (path : Option String) (sl : Option Int)
    (cat : Option String) (msg : Option String) : Alert :=
  { tool_name := "t", rule_id := rid, rule_description := none, severity := "warning",
    security_severity := "medium", state := "open",
    location := ⟨path, sl, none, none, none⟩, message := msg, category := cat,
    metadata := mdEmpty }

/-- The fingerprint table built by `findOverlap` before partitioning. -/
def tableOf (toolResults : List (String × List Alert)) : List Group :=
  toolResults.foldl foldAlerts []

/-! ## Characterization of the fingerprint table -/

theorem fingerprint_update_invariant (fp tool : String) (g : Group) :
    ((if g.fingerprint == fp then { g with detectedBy := g.detectedBy ++ [tool] }
      else g) : Group).fingerprint = g.fingerprint := by
  by_cases hg : g.fingerprint == fp <;> simp [hg]

theorem any_fps_iff (st : List Group) (fp : String) :
    st.any (fun g => g.fingerprint == fp) = true ↔ fp ∈ groupFps st := by
  rw [List.any_eq_true]
  unfold groupFps
  constructor
  · rintro ⟨g, hmem, hfp⟩
    exact List.mem_map.mpr ⟨g, hmem, beq_iff_eq.mp hfp⟩
  · intro h
    rcases List.mem_map.mp h with ⟨g, hmem, hfp⟩
    exact ⟨g, hmem, beq_iff_eq.mpr hfp⟩

theorem addAlert_fps (st : List Group) (tool : String) (a : Alert) :
    groupFps (addAlert st tool a) =
      if createFingerprint a ∈ groupFps st then groupFps st
      else groupFps st ++ [createFingerprint a] := by
  unfold addAlert
  by_cases h : st.any (fun g => g.fingerprint == createFingerprint a) = true
  · rw [if_pos h, if_pos ((any_fps_iff st _).mp h)]
    unfold groupFps
    rw [List.map_map]
    exact List.map_congr_left fun g _ => fingerprint_update_invariant _ _ g
  · rw [if_neg h, if_neg (fun hm => h ((any_fps_iff st _).mpr hm))]
    simp [groupFps]

theorem nodup_fps_addAlert (st : List Group) (tool : String) (a : Alert)
    (h : (groupFps st).Nodup) : (groupFps (addAlert st tool a)).Nodup := by
  rw [addAlert_fps]
  by_cases hm : createFingerprint a ∈ groupFps st
  · simpa [hm] using h
  · simp [hm, List.nodup_append, h]

theorem findGroup_addAlert (st : List Group) (tool : String) (a : Alert) (f : String) :
    findGroup (addAlert st tool a) f =
      if f = createFingerprint a then
        match findGroup st f with
        | some g => some { g with detectedBy := g.detectedBy ++ [tool] }
        | none => some { fingerprint := f, alert := a, detectedBy := [tool] }
      else findGroup st f := by
  unfold addAlert findGroup
  by_cases hany : st.any (fun g => g.fingerprint == createFingerprint a) = true
  · rw [if_pos hany, List.find?_map]
    have hpred : ((fun g : Group => g.fingerprint == f) ∘
        (fun g : Group => if g.fingerprint == createFingerprint a
          then { g with detectedBy := g.detectedBy ++ [tool] } else g)) =
        (fun g : Group => g.fingerprint == f) := by
      funext g
      by_cases hg : (g.fingerprint == createFingerprint a) = true
      · simp only [Function.comp_apply, if_pos hg]
      · simp only [Function.comp_apply, if_neg hg]
    rw [hpred]
    by_cases hf : f = createFingerprint a
    · rw [if_pos hf]
      rcases hsome : st.find? (fun g => g.fingerprint == f) with _ | g
      · rw [List.find?_eq_none] at hsome
        rcases List.any_eq_true.mp hany with ⟨g, hmem, hfp⟩
        rw [← hf] at hfp
        exact absurd hfp (hsome g hmem)
      · have hfp := List.find?_some hsome
        have hga : (g.fingerprint == createFingerprint a) = true := by
          rw [beq_iff_eq] at hfp ⊢
          rw [hfp, hf]
        rw [hsome, Option.map_some']
        rw [if_pos hga]
    · rw [if_neg hf]
      rcases hsome : st.find? (fun g => g.fingerprint == f) with _ | g
      · rw [hsome]
        rfl
      · have hfp := List.find?_some hsome
        have hga : ¬((g.fingerprint == createFingerprint a) = true) := by
          rw [beq_iff_eq] at hfp ⊢
          rw [hfp]
          exact hf
        rw [hsome, Option.map_some']
        rw [if_neg hga]
  · rw [if_neg hany, List.find?_append]
    by_cases hf : f = createFingerprint a
    · have hnone : st.find? (fun g => g.fingerprint == f) = none := by
        rw [List.find?_eq_none]
        intro g hmem hfp
        rw [hf] at hfp
        exact hany (List.any_eq_true.mpr ⟨g, hmem, hfp⟩)
      rw [hnone, if_pos hf]
      have hpos : ((fun g : Group => g.fingerprint == f)
          (Group.mk (createFingerprint a) a [tool])) = true := by
        rw [beq_iff_eq]
        exact hf.symm
      rw [@List.find?_cons_of_pos Group (fun g : Group => g.fingerprint == f) _ _ hpos,
        Option.none_or, hf]
    · rw [if_neg hf]
      have hneg : ¬(((fun g : Group => g.fingerprint == f)
          (Group.mk (createFingerprint a) a [tool])) = true) := by
        rw [beq_iff_eq]
        exact fun e => hf e.symm
      rw [@List.find?_cons_of_neg Group (fun g : Group => g.fingerprint == f) _ _ hneg,
        List.find?_nil, Option.or_none]

theorem nodup_fps_foldl (l : List (String × Alert)) :
    ∀ st : List Group, (groupFps st).Nodup →
      (groupFps (l.foldl (fun s pr => addAlert s pr.1 pr.2) st)).Nodup := by
  induction l with
  | nil => exact fun st h => h
  | cons pr l ih => exact fun st h => ih _ (nodup_fps_addAlert _ _ _ h)

theorem toolsFor_nil (f : String) : toolsFor [] f = [] := rfl

theorem toolsFor_cons (pr : String × Alert) (l : List (String × Alert)) (f : String) :
    toolsFor (pr :: l) f =
      if f = createFingerprint pr.2 then pr.1 :: toolsFor l f else toolsFor l f := by
  unfold toolsFor
  by_cases h : f = createFingerprint pr.2
  · rw [if_pos h,
      @List.filter_cons_of_pos (String × Alert) (fun pr => createFingerprint pr.2 == f) pr l
        (by rw [beq_iff_eq]; exact h.symm),
      List.map_cons]
  · rw [if_neg h,
      @List.filter_cons_of_neg (String × Alert) (fun pr => createFingerprint pr.2 == f) pr l
        (by rw [beq_iff_eq]; exact fun e => h e.symm)]

theorem findGroup_foldl (l : List (String × Alert)) :
    ∀ (st : List Group) (f : String),
      findGroup (l.foldl (fun s pr => addAlert s pr.1 pr.2) st) f =
        match findGroup st f with
        | some g => some { g with detectedBy := g.detectedBy ++ toolsFor l f }
        | none =>
          match l.filter (fun pr => createFingerprint pr.2 == f) with
          | [] => none
          | pr :: _ =>
            some { fingerprint := f, alert := pr.2, detectedBy := toolsFor l f } := by
  induction l with
  | nil =>
    intro st f
    rcases h : findGroup st f with _ | g
    · simp [h]
    · simp [h, toolsFor_nil]
  | cons pr l ih =>
    intro st f
    rw [List.foldl_cons, ih, findGroup_addAlert, toolsFor_cons]
    by_cases hf : f = createFingerprint pr.2
    · rw [if_pos hf, if_pos hf]
      have hpcons : ((fun pr : String × Alert => createFingerprint pr.2 == f) pr) = true := by
        rw [beq_iff_eq]
        exact hf.symm
      rw [@List.filter_cons_of_pos (String × Alert)
        (fun pr => createFingerprint pr.2 == f) pr l hpcons]
      rcases h : findGroup st f with _ | g
      · simp [List.singleton_append]
      · simp [List.append_assoc, List.singleton_append]
    · rw [if_neg hf, if_neg hf]
      have hpcons : ¬(((fun pr : String × Alert => createFingerprint pr.2 == f) pr) = true) := by
        rw [beq_iff_eq]
        exact fun e => hf e.symm
      rw [@List.filter_cons_of_neg (String × Alert)
        (fun pr => createFingerprint pr.2 == f) pr l hpcons]

theorem foldAlerts_flatten (toolResults : List (String × List Alert)) :
    ∀ st : List Group,
      toolResults.foldl foldAlerts st =
        (flattenTools toolResults).foldl (fun s pr => addAlert s pr.1 pr.2) st := by
  induction toolResults with
  | nil => exact fun _ => rfl
  | cons entry tr ih =>
    intro st
    rw [List.foldl_cons, ih]
    unfold flattenTools
    rw [List.flatMap_cons, List.foldl_append, List.foldl_map]
    rfl

theorem tableOf_flatten (toolResults : List (String × List Alert)) :
    tableOf toolResults =
      (flattenTools toolResults).foldl (fun s pr => addAlert s pr.1 pr.2) [] :=
  foldAlerts_flatten toolResults []

theorem nodup_tableOf (toolResults : List (String × List Alert)) :
    (groupFps (tableOf toolResults)).Nodup := by
  rw [tableOf_flatten]
  exact nodup_fps_foldl _ [] List.nodup_nil

theorem findGroup_tableOf (toolResults : List (String × List Alert)) (f : String) :
    findGroup (tableOf toolResults) f =
      match (flattenTools toolResults).filter (fun pr => createFingerprint pr.2 == f) with
      | [] => none
      | pr :: _ =>
        some { fingerprint := f, alert := pr.2,
               detectedBy := toolsFor (flattenTools toolResults) f } := by
  rw [tableOf_flatten, findGroup_foldl]
  rfl

theorem findGroup_mem_of_nodup :
    ∀ (st : List Group), (groupFps st).Nodup →
      ∀ g ∈ st, findGroup st g.fingerprint = some g := by
  intro st
  induction st with
  | nil => intro _ g hg; cases hg
  | cons x xs ih =>
    intro hnd g hg
    have hnd' : x.fingerprint ∉ groupFps xs ∧ (groupFps xs).Nodup := by
      have : groupFps (x :: xs) = x.fingerprint :: groupFps xs := rfl
      rw [this] at hnd
      exact List.nodup_cons.mp hnd
    rcases List.mem_cons.mp hg with rfl | htail
    · unfold findGroup
      rw [@List.find?_cons_of_pos Group (fun g1 => g1.fingerprint == g.fingerprint) g xs
        (by rw [beq_iff_eq])]
    · have hx : ¬(((fun g1 : Group => g1.fingerprint == g.fingerprint) x) = true) := by
        rw [beq_iff_eq]
        intro e
        have : g.fingerprint ∈ groupFps xs := List.mem_map.mpr ⟨g, htail, rfl⟩
        rw [← e] at this
        exact hnd'.1 this
      unfold findGroup
      rw [@List.find?_cons_of_neg Group (fun g1 => g1.fingerprint == g.fingerprint) x xs hx]
      exact ih hnd'.2 g htail

theorem mem_iff_findGroup {st : List Group} (hnd : (groupFps st).Nodup) (g : Group) :
    g ∈ st ↔ findGroup st g.fingerprint = some g := by
  constructor
  · exact findGroup_mem_of_nodup st hnd g
  · exact fun h => List.mem_of_find?_eq_some h

theorem toolsFor_length (l : List (String × Alert)) (f : String) :
    (toolsFor l f).length =
      ((l.map (fun pr => createFingerprint pr.2)).count f : Nat) := by
  unfold toolsFor
  rw [List.length_map, List.count_eq_countP, List.countP_map, List.countP_eq_length_filter]
  rfl

theorem count_occurrenceFps (toolResults : List (String × List Alert)) (f : String) :
    (occurrenceFps toolResults).count f = (toolsFor (flattenTools toolResults) f).length := by
  rw [toolsFor_length]
  rfl

theorem mem_filterPart_iff (toolResults : List (String × List Alert)) (q : Group → Bool)
    (f : String) :
    f ∈ groupFps ((tableOf toolResults).filter q) ↔
      (∃ g, findGroup (tableOf toolResults) f = some g ∧ q g = true) := by
  unfold groupFps
  constructor
  · intro h
    rcases List.mem_map.mp h with ⟨g, hmem, hfp⟩
    rcases List.mem_filter.mp hmem with ⟨htab, hq⟩
    refine ⟨g, ?_, hq⟩
    rw [← hfp]
    exact (mem_iff_findGroup (nodup_tableOf toolResults) g).mp htab
  · rintro ⟨g, hfind, hq⟩
    unfold findGroup at hfind
    have hmem : g ∈ tableOf toolResults := List.mem_of_find?_eq_some hfind
    have hfp := List.find?_some hfind
    exact List.mem_map.mpr ⟨g, List.mem_filter.mpr ⟨hmem, hq⟩, beq_iff_eq.mp hfp⟩

theorem toolsFor_eq_nil_of_filter (toolResults : List (String × List Alert)) (f : String)
    (h : (flattenTools toolResults).filter (fun pr => createFingerprint pr.2 == f) = []) :
    toolsFor (flattenTools toolResults) f = [] := by
  unfold toolsFor
  rw [h]
  rfl

theorem findGroup_tableOf_head (toolResults : List (String × List Alert)) (f : String) :
    findGroup (tableOf toolResults) f =
      ((flattenTools toolResults).filter (fun pr => createFingerprint pr.2 == f)).head?.map
        (fun pr =>
          { fingerprint := f, alert := pr.2,
            detectedBy := toolsFor (flattenTools toolResults) f }) := by
  rw [findGroup_tableOf]
  rcases hfilt : (flattenTools toolResults).filter (fun pr => createFingerprint pr.2 == f)
    with _ | ⟨pr, rest⟩
  · rw [hfilt]
    rfl
  · rw [hfilt]
    rfl

theorem filter_ne_nil_of_toolsFor (toolResults : List (String × List Alert)) (f : String)
    (h : toolsFor (flattenTools toolResults) f ≠ []) :
    (flattenTools toolResults).filter (fun pr => createFingerprint pr.2 == f) ≠ [] :=
  fun e => h (toolsFor_eq_nil_of_filter toolResults f e)

theorem overlap_fps_iff (toolResults : List (String × List Alert)) (f : String) :
    f ∈ groupFps (findOverlap toolResults).overlap ↔
      1 < (occurrenceFps toolResults).count f := by
  have hov : (findOverlap toolResults).overlap =
      (tableOf toolResults).filter (fun g => decide (1 < g.detectedBy.length)) := rfl
  rw [hov, mem_filterPart_iff, count_occurrenceFps, findGroup_tableOf_head]
  constructor
  · rintro ⟨g, hg, hq⟩
    rcases Option.map_eq_some'.mp hg with ⟨pr, _, hG⟩
    rw [← hG] at hq
    rw [decide_eq_true_eq] at hq
    exact hq
  · intro h1
    have hne : toolsFor (flattenTools toolResults) f ≠ [] := by
      intro e
      rw [e] at h1
      cases h1
    rcases hfilt : (flattenTools toolResults).filter (fun pr => createFingerprint pr.2 == f)
      with _ | ⟨pr, rest⟩
    · exact absurd hfilt (filter_ne_nil_of_toolsFor toolResults f hne)
    · refine ⟨Group.mk f pr.2 (toolsFor (flattenTools toolResults) f), ?_, ?_⟩
      · rw [hfilt]
        rfl
      · rw [decide_eq_true_eq]
        exact h1

theorem unique_fps_iff (toolResults : List (String × List Alert)) (f : String) :
    f ∈ groupFps (findOverlap toolResults).unique ↔
      (occurrenceFps toolResults).count f = 1 := by
  have hun : (findOverlap toolResults).unique =
      (tableOf toolResults).filter (fun g => g.detectedBy.length == 1) := rfl
  rw [hun, mem_filterPart_iff, count_occurrenceFps, findGroup_tableOf_head]
  constructor
  · rintro ⟨g, hg, hq⟩
    rcases Option.map_eq_some'.mp hg with ⟨pr, _, hG⟩
    rw [← hG] at hq
    rw [beq_iff_eq] at hq
    exact hq
  · intro h1
    have hne : toolsFor (flattenTools toolResults) f ≠ [] := by
      intro e
      rw [e] at h1
      cases h1
    rcases hfilt : (flattenTools toolResults).filter (fun pr => createFingerprint pr.2 == f)
      with _ | ⟨pr, rest⟩
    · exact absurd hfilt (filter_ne_nil_of_toolsFor toolResults f hne)
    · refine ⟨Group.mk f pr.2 (toolsFor (flattenTools toolResults) f), ?_, ?_⟩
      · rw [hfilt]
        rfl
      · rw [beq_iff_eq]
        exact h1

theorem mem_tableFps_iff (toolResults : List (String × List Alert)) (f : String) :
    f ∈ groupFps (tableOf toolResults) ↔ f ∈ occurrenceFps toolResults := by
  constructor
  · intro h
    rcases List.mem_map.mp h with ⟨g, hmem, hfp⟩
    have hfind := (mem_iff_findGroup (nodup_tableOf toolResults) g).mp hmem
    rw [hfp, findGroup_tableOf_head] at hfind
    rcases Option.map_eq_some'.mp hfind with ⟨pr, hhead, _⟩
    have hprmem := @List.mem_of_mem_head? (String × Alert)
      ((flattenTools toolResults).filter (fun pr => createFingerprint pr.2 == f)) pr
      (by rw [hhead]; rfl)
    rcases List.mem_filter.mp hprmem with ⟨hfl, hfp2⟩
    exact List.mem_map.mpr ⟨pr, hfl, beq_iff_eq.mp hfp2⟩
  · intro h
    rcases List.mem_map.mp h with ⟨pr, hfl, hfp⟩
    have hprf : pr ∈ (flattenTools toolResults).filter
        (fun pr => createFingerprint pr.2 == f) :=
      List.mem_filter.mpr ⟨hfl, beq_iff_eq.mpr hfp⟩
    rcases hfilt : (flattenTools toolResults).filter (fun pr => createFingerprint pr.2 == f)
      with _ | ⟨pr0, rest⟩
    · rw [hfilt] at hprf
      cases hprf
    · have hsome : findGroup (tableOf toolResults) f =
          some { fingerprint := f, alert := pr0.2,
                 detectedBy := toolsFor (flattenTools toolResults) f } := by
        rw [findGroup_tableOf_head, hfilt]
        rfl
      unfold findGroup at hsome
      have hmem := List.mem_of_find?_eq_some hsome
      exact List.mem_map.mpr ⟨_, hmem, rfl⟩

theorem total_eq_card (toolResults : List (String × List Alert)) :
    (findOverlap toolResults).total = (occurrenceFps toolResults).toFinset.card := by
  have h1 : (findOverlap toolResults).total = (groupFps (tableOf toolResults)).length :=
    (List.length_map _ _).symm
  have h3 := List.toFinset_card_of_nodup (nodup_tableOf toolResults)
  have h4 : (groupFps (tableOf toolResults)).toFinset = (occurrenceFps toolResults).toFinset := by
    ext x
    simp only [List.mem_toFinset]
    exact mem_tableFps_iff toolResults x
  rw [h1, ← h3, h4]

/-! ## Claim theorems -/

theorem flattenTools_forall2_perm :
    ∀ {t1 t2 : List (String × List Alert)},
      List.Forall₂ (fun p q => p.1 = q.1 ∧ p.2.Perm q.2) t1 t2 →
      (flattenTools t1).Perm (flattenTools t2) := by
  intro t1 t2 hf2
  induction hf2 with
  | nil => exact List.Perm.refl _
  | cons hpq _ ih =>
    rename_i p q l1 l2 _
    unfold flattenTools
    rw [List.flatMap_cons, List.flatMap_cons]
    refine List.Perm.append ?_ ih
    rw [← hpq.1]
    exact List.Perm.map _ hpq.2

theorem flattenTools_perm (tr1 tr2 : List (String × List Alert))
    (h : ∃ trMid, tr1.Perm trMid ∧
      List.Forall₂ (fun p q => p.1 = q.1 ∧ p.2.Perm q.2) trMid tr2) :
    (flattenTools tr1).Perm (flattenTools tr2) := by
  rcases h with ⟨trMid, hperm, hf2⟩
  exact (List.Perm.flatMap_right _ hperm).trans (flattenTools_forall2_perm hf2)

/-- C9: `findOverlap` is order-independent — permuting the tool iteration order
and each tool's finding-list order leaves the total, the set of fingerprints in
the `overlap` part and the set of fingerprints in the `unique` part unchanged. -/
theorem findOverlap_order_independent (tr1 tr2 : List (String × List Alert))
    (h : ∃ trMid, tr1.Perm trMid ∧
      List.Forall₂ (fun p q => p.1 = q.1 ∧ p.2.Perm q.2) trMid tr2) :
    (findOverlap tr1).total = (findOverlap tr2).total
    ∧ (∀ f, f ∈ groupFps (findOverlap tr1).overlap ↔ f ∈ groupFps (findOverlap tr2).overlap)
    ∧ (∀ f, f ∈ groupFps (findOverlap tr1).unique ↔ f ∈ groupFps (findOverlap tr2).unique) := by
  have hperm : (occurrenceFps tr1).Perm (occurrenceFps tr2) :=
    List.Perm.map _ (flattenTools_perm tr1 tr2 h)
  refine ⟨?_, ?_, ?_⟩
  · rw [total_eq_card, total_eq_card, List.toFinset_eq_of_perm _ _ hperm]
  · intro f
    rw [overlap_fps_iff, overlap_fps_iff, hperm.count_eq f]
  · intro f
    rw [unique_fps_iff, unique_fps_iff, hperm.count_eq f]

/-- Fixture for C9's witness: two tools, tool orders and inner list orders
permuted between the two inputs. -/
def alertW1 : Alert := mkAlert (some "r1") (some "p1") (some 1) (some "XSS") none

def alertW2 : Alert := mkAlert (some "r2") (some "p2") (some 2) (some "CSRF") none

def alertW3 : Alert := mkAlert (some "r3") (some "p3") (some 3) (some "SSRF") none

/-- Witness for C9 at a concrete pair of permuted inputs. -/
theorem findOverlap_order_independent_instance :
    (findOverlap [("A", [alertW1]), ("B", [alertW2, alertW3])]).total =
      (findOverlap [("B", [alertW3, alertW2]), ("A", [alertW1])]).total :=
  (findOverlap_order_independent
    [("A", [alertW1]), ("B", [alertW2, alertW3])]
    [("B", [alertW3, alertW2]), ("A", [alertW1])]
    ⟨[("B", [alertW2, alertW3]), ("A", [alertW1])], by decide,
      List.Forall₂.cons ⟨rfl, List.Perm.swap alertW3 alertW2 []⟩
        (List.Forall₂.cons ⟨rfl, List.Perm.refl _⟩ List.Forall₂.nil)⟩).1

/-- Fixture for C1: one tool reporting the identical finding twice. -/
def alertC1 : Alert := mkAlert (some "r") (some "p") (some 1) (some "XSS") none

def trC1 : List (String × List Alert) := [("A", [alertC1, alertC1])]

/-- C1 counterexample: a single tool reporting the same fingerprint twice
produces `detected_by = ["A", "A"]` (the name is recorded twice, not once) and
the group is classified as shared (`overlap`), not `unique` — the claimed set
semantics does not hold. -/
theorem findOverlap_duplicate_within_tool_shared :
    (findOverlap trC1).unique = []
    ∧ ((findOverlap trC1).overlap.map (·.detectedBy)) = [["A", "A"]] := by
  decide

/-- C1 (corrected): `detected_by` keeps one entry per finding occurrence
(within-tool duplicates retained), and a group is classified as `overlap`
exactly when its fingerprint has more than one occurrence across all tools,
counting duplicates — not when more than one distinct tool detected it. -/
theorem findOverlap_partition_by_occurrence_count
    (toolResults : List (String × List Alert)) (f : String) :
    (f ∈ groupFps (findOverlap toolResults).overlap ↔
      1 < (occurrenceFps toolResults).count f)
    ∧ (f ∈ groupFps (findOverlap toolResults).unique ↔
      (occurrenceFps toolResults).count f = 1)
    ∧ (∀ g, g ∈ (findOverlap toolResults).overlap ++ (findOverlap toolResults).unique →
        g.detectedBy = toolsFor (flattenTools toolResults) g.fingerprint) := by
  refine ⟨overlap_fps_iff toolResults f, unique_fps_iff toolResults f, ?_⟩
  intro g hg
  have hmem : g ∈ tableOf toolResults := by
    rcases List.mem_append.mp hg with h | h
    · exact (List.mem_filter.mp h).1
    · exact (List.mem_filter.mp h).1
  have hfind := (mem_iff_findGroup (nodup_tableOf toolResults) g).mp hmem
  rw [findGroup_tableOf_head] at hfind
  rcases Option.map_eq_some'.mp hfind with ⟨pr, _, hG⟩
  rw [← hG]

/-- Witness for C1's corrected statement at the duplicate-within-tool input. -/
theorem findOverlap_partition_by_occurrence_count_instance :
    (Group.mk "r::p::1::XSS" alertC1 ["A", "A"]).detectedBy =
      toolsFor (flattenTools trC1) "r::p::1::XSS" :=
  (findOverlap_partition_by_occurrence_count trC1 "r::p::1::XSS").2.2
    (Group.mk "r::p::1::XSS" alertC1 ["A", "A"]) (by decide)

/-- Fixture for C4: an alert whose `start_line` is null. -/
def alertC4 : Alert := mkAlert (some "r") (some "p") none (some "c") none

/-- C4 counterexample: with a null `start_line` the fingerprint equals the join
in which the line component is the empty string — exactly what the claim says
can never happen; there is no fixed non-empty sentinel. -/
theorem createFingerprint_null_line_empty_component :
    createFingerprint alertC4 = String.intercalate "::" ["r", "p", "", "c"]
    ∧ createFingerprint alertC4 = "r::p::::c" := by
  decide

/-- C4 (corrected): the fingerprint is the `::`-join of `rule_id`,
`location.path`, stringified `start_line` and `category`, but a null
`start_line` serializes to the empty string (JavaScript `Array.prototype.join`
semantics), not to a fixed non-empty sentinel; alerts agreeing on the identity
tuple always receive equal fingerprints. -/
theorem createFingerprint_join_with_empty_null (a b : Alert) :
    (a.location.start_line = none →
      createFingerprint a = String.intercalate "::"
        [jsStr a.rule_id, jsStr a.location.path, "", jsStr a.category])
    ∧ (a.rule_id = b.rule_id → a.location.path = b.location.path →
        a.location.start_line = b.location.start_line → a.category = b.category →
        createFingerprint a = createFingerprint b) := by
  constructor
  · intro h
    unfold createFingerprint
    rw [h]
    rfl
  · intro h1 h2 h3 h4
    unfold createFingerprint
    rw [h1, h2, h3, h4]

/-- Witness for C4's corrected statement at the null-line alert. -/
theorem createFingerprint_join_with_empty_null_instance :
    createFingerprint alertC4 = String.intercalate "::"
      [jsStr alertC4.rule_id, jsStr alertC4.location.path, "", jsStr alertC4.category] :=
  (createFingerprint_join_with_empty_null alertC4 alertC4).1 rfl

/-- Fixture for C5: no existing category, the keyword occurring only in the
message. -/
def alertC5 : Alert :=
  mkAlert (some "rule-1") (some "p") (some 1) none (some "possible xss in template")

/-- C5 counterexample: the analyzer's `extractCategory` matches the keywords
against `rule_id` alone, so an alert whose message (but not rule id) contains
`xss` is classified `Other`, while the claimed classifier — matching against
the concatenation of rule id and message — returns `XSS`. -/
theorem extractCategory_ignores_message_counterexample :
    extractCategory alertC5 = "Other"
    ∧ specClassifyCategory "rule-1" "possible xss in template" none = "XSS"
    ∧ extractCategory alertC5 ≠
        specClassifyCategory (jsStr alertC5.rule_id) (jsStr alertC5.message)
          alertC5.category := by
  decide

/-- C5 (corrected): `extractCategory` returns a truthy existing category
unchanged; otherwise it scans the ordered keyword list case-insensitively
against the lower-cased `rule_id` alone — the message is ignored entirely —
and returns `Other` when no keyword matches. -/
theorem extractCategory_rule_id_only (alert : Alert) :
    (strTruthy alert.category = true → extractCategory alert = jsStr alert.category)
    ∧ (∀ m, extractCategory { alert with message := m } = extractCategory alert)
    ∧ (strTruthy alert.category = false →
        (∀ k ∈ (["xss", "sql", "command", "path", "csrf", "ssrf"] : List String),
          jsIncludes (jsToLower (jsStr alert.rule_id)) k = false) →
        extractCategory alert = "Other") := by
  refine ⟨?_, ?_, ?_⟩
  · intro h
    unfold extractCategory
    rw [if_pos h]
  · intro m
    rfl
  · intro h hk
    have h1 := hk "xss" (by decide)
    have h2 := hk "sql" (by decide)
    have h3 := hk "command" (by decide)
    have h4 := hk "path" (by decide)
    have h5 := hk "csrf" (by decide)
    have h6 := hk "ssrf" (by decide)
    simp only [extractCategory, h, h1, h2, h3, h4, h5, h6, Bool.false_eq_true, if_false]

/-- Witness for C5's corrected statement at concrete alerts. -/
theorem extractCategory_rule_id_only_instance :
    extractCategory alertC5 = "Other" :=
  (extractCategory_rule_id_only alertC5).2.2 (by decide) (by decide)

/-! ## Association-table counting (`analyzeByCategory`) -/

theorem lookupStr_append (c : String) (l1 l2 : List (String × Nat)) :
    lookupStr c (l1 ++ l2) =
      match lookupStr c l1 with
      | some v => some v
      | none => lookupStr c l2 := by
  induction l1 with
  | nil => rfl
  | cons p ps ih =>
    by_cases h : p.1 = c
    · simp [lookupStr, h]
    · simp [lookupStr, h, ih]

theorem lookupStr_map_bumpKey (c key : String) (acc : List (String × Nat)) :
    lookupStr c (acc.map (fun p => if p.1 == key then (p.1, p.2 + 1) else p)) =
      if c = key then (lookupStr c acc).map (· + 1) else lookupStr c acc := by
  induction acc with
  | nil =>
    by_cases h : c = key <;> simp [lookupStr, h]
  | cons p ps ih =>
    rw [List.map_cons]
    by_cases hp : (p.1 == key) = true
    · rw [if_pos hp]
      have hpeq := beq_iff_eq.mp hp
      by_cases hpc : p.1 = c
      · have hc : c = key := by rw [← hpc, hpeq]
        have e1 : lookupStr c ((p.1, p.2 + 1) ::
            ps.map (fun p => if p.1 == key then (p.1, p.2 + 1) else p)) = some (p.2 + 1) := by
          show (if p.1 = c then some (p.2 + 1) else _) = _
          rw [if_pos hpc]
        have e2 : lookupStr c (p :: ps) = some p.2 := by
          show (if p.1 = c then some p.2 else _) = _
          rw [if_pos hpc]
        rw [e1, if_pos hc, e2]
        rfl
      · have hc : ¬c = key := fun e => hpc (by rw [hpeq, ← e])
        have e1 : lookupStr c ((p.1, p.2 + 1) ::
            ps.map (fun p => if p.1 == key then (p.1, p.2 + 1) else p)) =
            lookupStr c (ps.map (fun p => if p.1 == key then (p.1, p.2 + 1) else p)) := by
          show (if p.1 = c then _ else _) = _
          rw [if_neg hpc]
        have e2 : lookupStr c (p :: ps) = lookupStr c ps := by
          show (if p.1 = c then _ else _) = _
          rw [if_neg hpc]
        rw [e1, e2, ih, if_neg hc]
    · rw [if_neg hp]
      have hpeq : ¬p.1 = key := fun e => hp (beq_iff_eq.mpr e)
      by_cases hpc : p.1 = c
      · have hc : ¬c = key := fun e => hpeq (by rw [hpc, e])
        have e1 : lookupStr c (p ::
            ps.map (fun p => if p.1 == key then (p.1, p.2 + 1) else p)) = some p.2 := by
          show (if p.1 = c then some p.2 else _) = _
          rw [if_pos hpc]
        have e2 : lookupStr c (p :: ps) = some p.2 := by
          show (if p.1 = c then some p.2 else _) = _
          rw [if_pos hpc]
        rw [e1, if_neg hc, e2]
      · have e1 : lookupStr c (p ::
            ps.map (fun p => if p.1 == key then (p.1, p.2 + 1) else p)) =
            lookupStr c (ps.map (fun p => if p.1 == key then (p.1, p.2 + 1) else p)) := by
          show (if p.1 = c then _ else _) = _
          rw [if_neg hpc]
        have e2 : lookupStr c (p :: ps) = lookupStr c ps := by
          show (if p.1 = c then _ else _) = _
          rw [if_neg hpc]
        rw [e1, e2, ih]

theorem lookupStr_isSome_of_mem (l : List (String × Nat)) (p : String × Nat)
    (hmem : p ∈ l) : ∃ v, lookupStr p.1 l = some v := by
  induction l with
  | nil => cases hmem
  | cons q qs ih =>
    by_cases hq : q.1 = p.1
    · refine ⟨q.2, ?_⟩
      show (if q.1 = p.1 then some q.2 else _) = _
      rw [if_pos hq]
    · rcases List.mem_cons.mp hmem with rfl | htail
      · exact absurd rfl hq
      · rcases ih htail with ⟨v, hv⟩
        refine ⟨v, ?_⟩
        show (if q.1 = p.1 then some q.2 else _) = _
        rw [if_neg hq]
        exact hv

theorem exists_mem_of_lookupStr (l : List (String × Nat)) (c : String) (v : Nat)
    (h : lookupStr c l = some v) : ∃ p ∈ l, p.1 = c := by
  induction l with
  | nil => cases h
  | cons q qs ih =>
    by_cases hq : q.1 = c
    · exact ⟨q, List.mem_cons_self q qs, hq⟩
    · have hred : lookupStr c (q :: qs) = lookupStr c qs := by
        show (if q.1 = c then _ else _) = _
        rw [if_neg hq]
      rw [hred] at h
      rcases ih h with ⟨p, hp, hpc⟩
      exact ⟨p, List.mem_cons_of_mem q hp, hpc⟩

theorem bump_lookup (acc : List (String × Nat)) (key c : String) :
    lookupStr c (bump acc key) =
      if c = key then some ((lookupStr c acc).getD 0 + 1) else lookupStr c acc := by
  unfold bump
  by_cases hany : (acc.any fun p => p.1 == key) = true
  · rw [if_pos hany, lookupStr_map_bumpKey]
    by_cases hc : c = key
    · rw [if_pos hc, if_pos hc]
      rcases List.any_eq_true.mp hany with ⟨p, hmem, hkey⟩
      rcases lookupStr_isSome_of_mem acc p hmem with ⟨v, hv⟩
      have hkeyeq : p.1 = key := beq_iff_eq.mp hkey
      rw [hkeyeq] at hv
      rw [hc, hv]
      rfl
    · rw [if_neg hc, if_neg hc]
  · rw [if_neg hany, lookupStr_append]
    by_cases hc : c = key
    · have hnone : lookupStr c acc = none := by
        rcases hv : lookupStr c acc with _ | v
        · rfl
        · rcases exists_mem_of_lookupStr acc c v hv with ⟨p, hmem, hpc⟩
          have hpk : (p.1 == key) = true := beq_iff_eq.mpr (by rw [hpc, hc])
          exact absurd (List.any_eq_true.mpr ⟨p, hmem, hpk⟩) hany
      rw [hnone, if_pos hc]
      show lookupStr c [(key, 1)] = _
      show (if (key, 1).1 = c then some (key, 1).2 else lookupStr c []) = _
      rw [if_pos hc.symm]
      rfl
    · rw [if_neg hc]
      rcases hv : lookupStr c acc with _ | v
      · show lookupStr c [(key, 1)] = _
        show (if (key, 1).1 = c then some (key, 1).2 else lookupStr c []) = _
        rw [if_neg (fun e => hc (Eq.symm e))]
        rfl
      · rfl


theorem foldl_bump_lookup (alerts : List Alert) :
    ∀ (acc : List (String × Nat)) (c : String),
      lookupStr c (alerts.foldl (fun acc a => bump acc (jsCategory a)) acc) =
        match lookupStr c acc with
        | some n => some (n + (alerts.filter (fun a => jsCategory a == c)).length)
        | none =>
          if 0 < (alerts.filter (fun a => jsCategory a == c)).length then
            some (alerts.filter (fun a => jsCategory a == c)).length
          else none := by
  induction alerts with
  | nil =>
    intro acc c
    rcases h : lookupStr c acc with _ | n <;> simp [h]
  | cons a rest ih =>
    intro acc c
    rw [List.foldl_cons, ih]
    by_cases hc : c = jsCategory a
    · have hpos : ((fun a : Alert => jsCategory a == c) a) = true := by
        rw [beq_iff_eq]
        exact hc.symm
      rw [@List.filter_cons_of_pos Alert (fun a => jsCategory a == c) a rest hpos]
      rw [bump_lookup, if_pos hc]
      rcases h : lookupStr c acc with _ | n
      · simp only [h, Option.getD_none, List.length_cons]
        rw [if_pos (Nat.succ_pos _)]
        congr 1
        omega
      · simp only [h, Option.getD_some, List.length_cons]
        congr 1
        omega
    · have hneg : ¬(((fun a : Alert => jsCategory a == c) a) = true) := by
        rw [beq_iff_eq]
        exact fun e => hc e.symm
      rw [@List.filter_cons_of_neg Alert (fun a => jsCategory a == c) a rest hneg]
      rw [bump_lookup, if_neg hc]

/-- Fixture for C8: one tool with a single XSS finding. -/
def trC8 : List (String × List Alert) :=
  [("A", [mkAlert (some "r") (some "p") (some 1) (some "XSS") none])]

/-- C8 counterexample: for a tool that reported one XSS finding and nothing
else, the per-tool category table contains only the key `XSS`; the vocabulary
category `SQL Injection` is absent from the mapping (lookup yields `none`), not
mapped to `0` as the claim requires. -/
theorem analyzeByCategory_omits_zero_counterexample :
    analyzeByCategory trC8 = [("A", [("XSS", 1)])]
    ∧ "SQL Injection" ∈ vocabulary14
    ∧ lookupStr "SQL Injection" [("XSS", 1)] = none := by
  decide

/-- C8 (corrected): per tool, `by_category` contains exactly the categories
with a positive count — a key is present iff at least one of the tool's alerts
has that effective category, in which case it maps to the exact count; zero
count means the key is omitted, not recorded as `0`. -/
theorem analyzeByCategory_positive_counts (toolResults : List (String × List Alert)) :
    analyzeByCategory toolResults =
      toolResults.map (fun entry => (entry.1, categoryCounts entry.2))
    ∧ (∀ (alerts : List Alert) (c : String),
        lookupStr c (categoryCounts alerts) =
          if 0 < (alerts.filter (fun a => jsCategory a == c)).length then
            some (alerts.filter (fun a => jsCategory a == c)).length
          else none) := by
  refine ⟨rfl, ?_⟩
  intro alerts c
  unfold categoryCounts
  rw [foldl_bump_lookup]
  rfl

/-- C10: `normalizeAlert` stores the canonical value in `security_severity`
and a CodeQL-style shadow token in `severity` computed by
`mapSeverityToCodeQL` (`critical`/`high` ↦ `error`, `medium` ↦ `warning`,
`low` ↦ `note`, anything else ↦ `warning`); `analyzeBySeverity` reads only
`security_severity` — rewriting the shadow `severity` field arbitrarily never
changes its output. -/
theorem severity_shadow_field_behavior :
    (∀ (f : Finding) (t : String),
      (normalizeAlert f t).severity = mapSeverityToCodeQL f.severity
      ∧ (normalizeAlert f t).security_severity = f.severity)
    ∧ mapSeverityToCodeQL "critical" = "error"
    ∧ mapSeverityToCodeQL "high" = "error"
    ∧ mapSeverityToCodeQL "medium" = "warning"
    ∧ mapSeverityToCodeQL "low" = "note"
    ∧ (∀ s, s ≠ "critical" → s ≠ "high" → s ≠ "medium" → s ≠ "low" →
        mapSeverityToCodeQL s = "warning")
    ∧ (∀ (toolResults : List (String × List Alert)) (shadow : Alert → String),
        analyzeBySeverity (toolResults.map (fun entry =>
          (entry.1, entry.2.map (fun a => { a with severity := shadow a })))) =
        analyzeBySeverity toolResults) := by
  refine ⟨fun f t => ⟨rfl, rfl⟩, by decide, by decide, by decide, by decide, ?_, ?_⟩
  · intro s h1 h2 h3 h4
    unfold mapSeverityToCodeQL
    rw [if_neg h1, if_neg h2, if_neg h3, if_neg h4]
  · intro toolResults shadow
    unfold analyzeBySeverity
    rw [List.map_map]
    refine List.map_congr_left ?_
    intro entry _
    have hcount : ∀ sev : String,
        ((entry.2.map (fun a => { a with severity := shadow a })).filter
          (fun x => x.security_severity == sev)).length =
        (entry.2.filter (fun a => a.security_severity == sev)).length := by
      intro sev
      rw [List.filter_map, List.length_map]
      rfl
    simp only [Function.comp_apply]
    refine congrArg (fun x => (entry.1, x)) ?_
    show SeverityCounts.mk _ _ _ _ = SeverityCounts.mk _ _ _ _
    rw [hcount, hcount, hcount, hcount]

/-- Witness for C10 at a concrete unrecognized severity token. -/
theorem severity_shadow_field_behavior_instance :
    mapSeverityToCodeQL "bogus" = "warning" :=
  severity_shadow_field_behavior.2.2.2.2.2.1 "bogus"
    (by decide) (by decide) (by decide) (by decide)

/-! ## Path rebasing (C2) -/

theorem charsLeads_append (p rest : List Char) : charsLeads p (p ++ rest) = true := by
  induction p with
  | nil => rfl
  | cons c cs ih => simp [charsLeads, ih]

theorem charsFindSplit_self_append (pat rest : List Char) (hne : pat ≠ []) :
    charsFindSplit (pat ++ rest) pat = some ([], rest) := by
  rcases pat with _ | ⟨p, ps⟩
  · exact absurd rfl hne
  · show charsFindSplit (p :: (ps ++ rest)) (p :: ps) = _
    unfold charsFindSplit
    rw [if_pos (show charsLeads (p :: ps) (p :: (ps ++ rest)) = true from
      charsLeads_append (p :: ps) rest)]
    rw [show (p :: (ps ++ rest) : List Char) = (p :: ps) ++ rest from rfl, List.drop_left]

theorem jsReplaceFirst_strip (pat rel : String) (hne : pat ≠ "") :
    jsReplaceFirst (pat ++ rel) pat "" = rel := by
  have hdne : pat.data ≠ [] := by
    intro e
    apply hne
    have hmk : pat = String.mk pat.data := rfl
    rw [hmk, e]
  unfold jsReplaceFirst
  have hd : (pat ++ rel).data = pat.data ++ rel.data := rfl
  rw [hd, charsFindSplit_self_append pat.data rel.data hdne]
  show String.mk [] ++ "" ++ String.mk rel.data = rel
  rfl

/-- Fixture for C2: a semgrep raw result and a snyk raw result reporting the
same root-prefixed absolute file path. -/
def semgrepResC2 : SemgrepResult :=
  { check_id := some "xss-rule", path := some "/repo/app.js",
    start := none, stop := none, extra := none }

def snykResC2 : SnykResult :=
  { ruleId := some "xss-rule", message := none, level := none,
    locations := some [⟨some ⟨some ⟨some "/repo/app.js"⟩, none⟩⟩], properties := none }

/-- C2 counterexample: for one and the same tool path `/repo/app.js` under the
scan root `/repo`, the snyk adapter rebases to `app.js` while the semgrep
adapter copies the path verbatim, so the two `location.path` strings differ. -/
theorem semgrep_snyk_path_mismatch :
    ((semgrepParseResult semgrepResC2 none).map (fun f => f.location.path)) =
      Except.ok (some "/repo/app.js")
    ∧ (snykParseResult snykResC2 none (some "/repo")).location.path = some "app.js"
    ∧ ("/repo/app.js" : String) ≠ "app.js" := by
  refine ⟨rfl, rfl, by decide⟩

/-- C2 (corrected): only the snyk (and eslint) adapters rebase the tool's file
path, by deleting the first occurrence of `scanRoot + "/"`; the semgrep adapter
copies `result.path` verbatim. For one root-prefixed absolute path, snyk
therefore yields the repository-relative path while semgrep keeps the absolute
one, and the two strings always differ. -/
theorem adapter_path_rebasing_behavior (root rel : String) (r : SemgrepResult)
    (cid : String) (hcid : r.check_id = some cid)
    (hpath : r.path = some (root ++ "/" ++ rel)) :
    (∃ f, semgrepParseResult r none = .ok f ∧ f.location.path = some (root ++ "/" ++ rel))
    ∧ (∀ s : SnykResult,
        ((((s.locations.bind (·.head?)).bind (·.physicalLocation)).bind
          (·.artifactLocation)).bind (·.uri)) = some (root ++ "/" ++ rel) →
        (snykParseResult s none (some root)).location.path = some rel)
    ∧ jsReplaceFirst (root ++ "/" ++ rel) (root ++ "/") "" = rel
    ∧ root ++ "/" ++ rel ≠ rel := by
  have hone : ("/" : String).length = 1 := rfl
  have hzero : ("" : String).length = 0 := rfl
  have hslash : (root ++ "/") ≠ "" := by
    intro e
    have hlen := congrArg String.length e
    rw [String.length_append, hone, hzero] at hlen
    omega
  have hstrip : jsReplaceFirst (root ++ "/" ++ rel) (root ++ "/") "" = rel :=
    jsReplaceFirst_strip (root ++ "/") rel hslash
  refine ⟨?_, ?_, hstrip, ?_⟩
  · rcases r with ⟨c0, p0, s0, e0, x0⟩
    simp only at hcid hpath
    subst hcid
    subst hpath
    exact ⟨_, rfl, rfl⟩
  · intro s hchain
    have habs : (root ++ "/" ++ rel) ≠ "" := by
      intro e
      have hlen := congrArg String.length e
      rw [String.length_append, String.length_append, hone, hzero] at hlen
      omega
    show some (jsReplaceFirst
      (jsOrStrD ((((s.locations.bind (·.head?)).bind (·.physicalLocation)).bind
        (·.artifactLocation)).bind (·.uri)) "")
      (jsAdd (some root) "/") "") = some rel
    rw [hchain]
    show some (jsReplaceFirst (if (root ++ "/" ++ rel) = "" then ""
      else root ++ "/" ++ rel) (root ++ "/") "") = some rel
    rw [if_neg habs, hstrip]
  · intro e
    have hlen := congrArg String.length e
    rw [String.length_append, String.length_append, hone] at hlen
    omega

/-- Witness for C2's corrected statement at concrete root and path. -/
theorem adapter_path_rebasing_behavior_instance :
    jsReplaceFirst ("/repo" ++ "/" ++ "app.js") ("/repo" ++ "/") "" = "app.js"
    ∧ "/repo" ++ "/" ++ "app.js" ≠ "app.js" :=
  ⟨(adapter_path_rebasing_behavior "/repo" "app.js" semgrepResC2 "xss-rule" rfl rfl).2.2.1,
   (adapter_path_rebasing_behavior "/repo" "app.js" semgrepResC2 "xss-rule" rfl rfl).2.2.2⟩

/-! ## Adapter totality (C3) -/

theorem bind_ok_isOk {α β : Type} (e : Except String α) (g : α → β) :
    (e.bind (fun x => Except.ok (g x))).isOk = e.isOk := by
  cases e <;> rfl

theorem mapExcept_isOk {α β : Type} (f : α → Except String β) (l : List α) :
    (mapExcept f l).isOk = l.all (fun a => (f a).isOk) := by
  induction l with
  | nil => rfl
  | cons a as ih =>
    rw [List.all_cons, ← ih]
    show (Except.bind (f a) fun b =>
      Except.bind (mapExcept f as) fun bs => Except.ok (b :: bs)).isOk =
      ((f a).isOk && (mapExcept f as).isOk)
    rcases f a with err | b
    · rfl
    · rcases mapExcept f as with err2 | bs2 <;> rfl

/-- Fixture for C3: a successful scan whose single raw result lacks `check_id`. -/
def semgrepScanC3 : ScanOutput SemgrepRawOutput :=
  { success := true, error := none, tool_name := some "Semgrep", tool_version := none,
    repository := some "repo", repository_path := some "/repo", scan_date := none,
    scan_duration_ms := none,
    raw_output := some ⟨some [SemgrepResult.mk none (some "x.js") none none none]⟩ }

/-- C3 counterexample: a raw semgrep result without `check_id` makes `parse`
throw a `TypeError` (the fault propagates — there is no catch-all producing
`success: false`), so the adapter is not total over malformed input. -/
theorem semgrep_parse_throws_on_missing_check_id :
    semgrepParse semgrepScanC3 = Except.error undefinedToLowerError := rfl

/-- C3 (corrected): the semgrep adapter returns the structured failure record
for scanner-level failure and fills the documented defaults for absent
optional sub-fields (`start_line: null`, `confidence: MEDIUM`, default
message), but it is not total: on a successful scan, `parse` returns without
fault exactly when every raw result carries a `check_id`; a result without one
(and likewise an ESLint message with a `null` `ruleId`) raises a `TypeError`
instead of yielding `success: false`. -/
theorem semgrep_parse_totality_characterization (so : ScanOutput SemgrepRawOutput) :
    (so.success = false → semgrepParse so = .ok (failedParse so.error))
    ∧ (so.success = true →
        ((semgrepParse so).isOk = true ↔
          ∀ r ∈ (so.raw_output.bind (·.results)).getD [], r.check_id.isSome = true))
    ∧ (∀ (r : SemgrepResult) (cid : String), r.check_id = some cid → r.start = none →
        r.stop = none → r.extra = none →
        semgrepParseResult r none = .ok
          { rule_id := some cid
            rule_description := none
            severity := "medium"
            category := semgrepExtractCategory cid
            message := some "Security issue detected"
            location := { path := r.path, start_line := none, end_line := none,
                          start_column := none, end_column := none }
            code_snippet := none
            confidence := "MEDIUM"
            cwe := [], owasp := [], references := [], fix := none })
    ∧ (∀ (m : ESLintMessage) (fp : String) (rn : Option String), m.ruleId = none →
        eslintParseMessage m fp rn = .error undefinedToLowerError) := by
  refine ⟨?_, ?_, ?_, ?_⟩
  · intro h
    unfold semgrepParse
    rw [h]
    rfl
  · intro h
    unfold semgrepParse
    rw [h]
    show ((mapExcept (fun r => semgrepParseResult r so.repository)
      ((so.raw_output.bind (·.results)).getD [])).bind (fun findings => Except.ok _)).isOk
        = true ↔ _
    rw [bind_ok_isOk, mapExcept_isOk, List.all_eq_true]
    constructor
    · intro hall r hr
      have := hall r hr
      rcases hc : r.check_id with _ | cid
      · rw [show semgrepParseResult r so.repository = .error undefinedToLowerError from by
          unfold semgrepParseResult
          rw [hc]] at this
        cases this
      · rfl
    · intro hall r hr
      have := hall r hr
      rcases hc : r.check_id with _ | cid
      · rw [hc] at this
        cases this
      · unfold semgrepParseResult
        rw [hc]
        rfl
  · intro r cid hcid hstart hstop hextra
    rcases r with ⟨c0, p0, s0, e0, x0⟩
    simp only at hcid hstart hstop hextra
    subst hcid
    subst hstart
    subst hstop
    subst hextra
    rfl
  · intro m fp rn h
    rcases m with ⟨rid, sev, msg, ln, eln, col, ecol, fx⟩
    simp only at h
    subst h
    rfl

/-- Fixture for C3's witness: a scanner-level failure record. -/
def semgrepScanFailed : ScanOutput SemgrepRawOutput :=
  { success := false, error := some "semgrep exited with code 2", tool_name := some "Semgrep",
    tool_version := none, repository := none, repository_path := none, scan_date := none,
    scan_duration_ms := none, raw_output := none }

/-- Witness for C3's corrected statement at concrete inputs. -/
theorem semgrep_parse_totality_characterization_instance :
    semgrepParse semgrepScanFailed = .ok (failedParse semgrepScanFailed.error) :=
  (semgrep_parse_totality_characterization semgrepScanFailed).1 rfl

/-! ## Category vocabulary (C6) -/

/-- The five categories the adapters can emit beyond the specified 14-value
vocabulary. -/
def extendedVocabulary : List String :=
  vocabulary14 ++ ["Code Injection", "Timing Attack", "Injection", "XXE", "LDAP Injection"]

theorem scanCategories1_mem (V : List String) (entries : List (String × String))
    (r : String) (hO : "Other" ∈ V) (h : ∀ p ∈ entries, p.2 ∈ V) :
    scanCategories1 entries r ∈ V := by
  induction entries with
  | nil => exact hO
  | cons p rest ih =>
    show (if jsIncludes r p.1 then p.2 else scanCategories1 rest r) ∈ V
    by_cases hk : jsIncludes r p.1 = true
    · rw [if_pos hk]
      exact h p (List.mem_cons_self p rest)
    · rw [if_neg hk]
      exact ih fun q hq => h q (List.mem_cons_of_mem p hq)

theorem scanCategories2_mem (V : List String) (entries : List (String × String))
    (r m : String) (hO : "Other" ∈ V) (h : ∀ p ∈ entries, p.2 ∈ V) :
    scanCategories2 entries r m ∈ V := by
  induction entries with
  | nil => exact hO
  | cons p rest ih =>
    show (if jsIncludes r p.1 || jsIncludes m p.1 then p.2 else scanCategories2 rest r m) ∈ V
    by_cases hk : (jsIncludes r p.1 || jsIncludes m p.1) = true
    · rw [if_pos hk]
      exact h p (List.mem_cons_self p rest)
    · rw [if_neg hk]
      exact ih fun q hq => h q (List.mem_cons_of_mem p hq)

theorem semgrepExtractCategory_mem (rid : String) :
    semgrepExtractCategory rid ∈ vocabulary14 :=
  scanCategories1_mem vocabulary14 semgrepCategories (jsToLower rid)
    (by decide) (by decide)

theorem eslintExtractCategory_mem (rid : String) :
    eslintExtractCategory rid ∈ extendedVocabulary :=
  scanCategories1_mem extendedVocabulary eslintCategories (jsToLower rid)
    (by decide) (by decide)

theorem snykExtractCategory_mem (rid msg : String) :
    snykExtractCategory rid msg ∈ extendedVocabulary :=
  scanCategories2_mem extendedVocabulary snykCategories (jsToLower rid) (jsToLower msg)
    (by decide) (by decide)

theorem sonarExtractCategory_mem (rid msg : String) :
    sonarExtractCategory rid msg ∈ extendedVocabulary :=
  scanCategories2_mem extendedVocabulary sonarCategories (jsToLower rid) (jsToLower msg)
    (by decide) (by decide)

/-- C6 counterexample: the ESLint adapter classifies the timing-attack rule as
`Timing Attack`, which is not one of the claimed 14 categories (ESLint also
emits `Code Injection` and `Injection`; SonarQube `XXE` and `LDAP Injection`;
Snyk `Code Injection`). -/
theorem eslint_category_outside_vocabulary :
    eslintExtractCategory "security/detect-possible-timing-attacks" = "Timing Attack"
    ∧ "Timing Attack" ∉ vocabulary14 := by
  decide

/-- C6 (corrected): every adapter-produced category lies in the 19-value
extended vocabulary (the claimed 14 values plus `Code Injection`,
`Timing Attack`, `Injection`, `XXE`, `LDAP Injection`); the semgrep adapter
alone stays within the claimed 14 values. -/
theorem adapter_categories_in_extended_vocabulary :
    (∀ rid : String, semgrepExtractCategory rid ∈ vocabulary14)
    ∧ (∀ rid : String, eslintExtractCategory rid ∈ extendedVocabulary)
    ∧ (∀ rid msg : String, snykExtractCategory rid msg ∈ extendedVocabulary)
    ∧ (∀ rid msg : String, sonarExtractCategory rid msg ∈ extendedVocabulary)
    ∧ (∀ (r : SemgrepResult) (rn : Option String) (f : Finding),
        semgrepParseResult r rn = .ok f → f.category ∈ vocabulary14)
    ∧ (∀ (s : SnykResult) (rn rp : Option String),
        (snykParseResult s rn rp).category ∈ extendedVocabulary)
    ∧ (∀ (m : ESLintMessage) (fp : String) (rn : Option String) (f : Finding),
        eslintParseMessage m fp rn = .ok f → f.category ∈ extendedVocabulary) := by
  refine ⟨semgrepExtractCategory_mem, eslintExtractCategory_mem, snykExtractCategory_mem,
    sonarExtractCategory_mem, ?_, ?_, ?_⟩
  · intro r rn f h
    rcases hc : r.check_id with _ | cid
    · rw [show semgrepParseResult r rn = .error undefinedToLowerError from by
        unfold semgrepParseResult
        rw [hc]] at h
      cases h
    · unfold semgrepParseResult at h
      rw [hc] at h
      have hf := (Except.ok.inj h).symm
      rw [hf]
      exact semgrepExtractCategory_mem cid
  · intro s rn rp
    exact snykExtractCategory_mem _ _
  · intro m fp rn f h
    rcases hc : m.ruleId with _ | rid
    · rw [show eslintParseMessage m fp rn = .error undefinedToLowerError from by
        unfold eslintParseMessage
        rw [hc]] at h
      cases h
    · unfold eslintParseMessage at h
      rw [hc] at h
      have hf := (Except.ok.inj h).symm
      rw [hf]
      exact eslintExtractCategory_mem rid

/-- The finding the semgrep adapter produces for `semgrepResC2`. -/
def findingC6 : Finding :=
  { rule_id := some "xss-rule", rule_description := none, severity := "medium",
    category := "XSS", message := some "Security issue detected",
    location := ⟨some "/repo/app.js", none, none, none, none⟩,
    code_snippet := none, confidence := "MEDIUM",
    cwe := [], owasp := [], references := [], fix := none }

/-- Witness for C6's corrected statement at a concrete parsed finding. -/
theorem adapter_categories_in_extended_vocabulary_instance :
    findingC6.category ∈ vocabulary14 :=
  adapter_categories_in_extended_vocabulary.2.2.2.2.1 semgrepResC2 none findingC6 rfl

/-! ## Uniqueness rate (C7) -/

theorem key_unique {toolResults : List (String × List Alert)}
    (h : (toolResults.map Prod.fst).Nodup) {e1 e2 : String × List Alert}
    (h1 : e1 ∈ toolResults) (h2 : e2 ∈ toolResults) (hk : e1.1 = e2.1) : e1 = e2 := by
  induction toolResults with
  | nil => cases h1
  | cons x xs ih =>
    have hnd : x.1 ∉ xs.map Prod.fst ∧ (xs.map Prod.fst).Nodup := by
      rw [show (x :: xs).map Prod.fst = x.1 :: xs.map Prod.fst from rfl] at h
      exact List.nodup_cons.mp h
    rcases List.mem_cons.mp h1 with rfl | t1
    · rcases List.mem_cons.mp h2 with rfl | t2
      · rfl
      · exact absurd (List.mem_map.mpr ⟨e2, t2, hk.symm⟩) hnd.1
    · rcases List.mem_cons.mp h2 with rfl | t2
      · exact absurd (List.mem_map.mpr ⟨e1, t1, hk⟩) hnd.1
      · exact ih hnd.2 t1 t2

theorem uniqueDetections_le (toolResults : List (String × List Alert))
    (hkeys : (toolResults.map Prod.fst).Nodup) (entry : String × List Alert)
    (hentry : entry ∈ toolResults) :
    ((findOverlap toolResults).unique.filter
      (fun u => u.detectedBy.head? == some entry.1)).length ≤ entry.2.length := by
  set F := (findOverlap toolResults).unique.filter
    (fun u => u.detectedBy.head? == some entry.1) with hF
  have hsub : List.Sublist F (tableOf toolResults) := by
    have h1 : List.Sublist F (findOverlap toolResults).unique := List.filter_sublist _
    have h2 : List.Sublist (findOverlap toolResults).unique (tableOf toolResults) :=
      List.filter_sublist _
    exact h1.trans h2
  have hmapsub : List.Sublist (F.map (·.fingerprint))
      ((tableOf toolResults).map (·.fingerprint)) :=
    List.Sublist.map (·.fingerprint) hsub
  have hnodupF : (groupFps F).Nodup :=
    List.Sublist.nodup hmapsub (nodup_tableOf toolResults)
  have hsubset : ∀ f ∈ groupFps F, f ∈ entry.2.map createFingerprint := by
    intro f hf
    rcases List.mem_map.mp hf with ⟨g, hgF, hgfp⟩
    rcases List.mem_filter.mp hgF with ⟨hgU, hhead⟩
    rcases List.mem_filter.mp hgU with ⟨hgT, hlen1⟩
    have hfind := (mem_iff_findGroup (nodup_tableOf toolResults) g).mp hgT
    rw [findGroup_tableOf_head] at hfind
    rcases Option.map_eq_some'.mp hfind with ⟨pr0, _, hG⟩
    have hdb : g.detectedBy = toolsFor (flattenTools toolResults) g.fingerprint := by
      rw [← hG]
    rw [beq_iff_eq] at hlen1
    rw [hdb] at hlen1 hhead
    rcases hfl : (flattenTools toolResults).filter
        (fun pr => createFingerprint pr.2 == g.fingerprint) with _ | ⟨pr, rest⟩
    · rw [show toolsFor (flattenTools toolResults) g.fingerprint =
          ((flattenTools toolResults).filter
            (fun pr => createFingerprint pr.2 == g.fingerprint)).map Prod.fst from rfl,
        hfl] at hlen1
      cases hlen1
    · have hrest : rest = [] := by
        rw [show toolsFor (flattenTools toolResults) g.fingerprint =
            ((flattenTools toolResults).filter
              (fun pr => createFingerprint pr.2 == g.fingerprint)).map Prod.fst from rfl,
          hfl] at hlen1
        simp only [List.map_cons, List.length_cons, List.length_map] at hlen1
        exact List.eq_nil_of_length_eq_zero (by omega)
      have hprtool : pr.1 = entry.1 := by
        rw [show toolsFor (flattenTools toolResults) g.fingerprint =
            ((flattenTools toolResults).filter
              (fun pr => createFingerprint pr.2 == g.fingerprint)).map Prod.fst from rfl,
          hfl, hrest] at hhead
        rw [beq_iff_eq] at hhead
        exact Option.some.inj hhead
      have hprmem : pr ∈ (flattenTools toolResults).filter
          (fun pr => createFingerprint pr.2 == g.fingerprint) := by
        rw [hfl]
        exact List.mem_cons_self pr rest
      rcases List.mem_filter.mp hprmem with ⟨hprfl, hprfp⟩
      rcases List.mem_flatMap.mp hprfl with ⟨e2, he2, hpr2⟩
      rcases List.mem_map.mp hpr2 with ⟨a, ha, hpa⟩
      have he2entry : e2 = entry := by
        refine key_unique hkeys he2 hentry ?_
        rw [show e2.1 = pr.1 from by rw [← hpa]]
        exact hprtool
      refine List.mem_map.mpr ⟨a, ?_, ?_⟩
      · rw [← he2entry]
        exact ha
      · have : createFingerprint pr.2 = g.fingerprint := beq_iff_eq.mp hprfp
        rw [← hgfp, ← this, ← hpa]
  calc F.length = (groupFps F).length := (List.length_map _ _).symm
    _ = (groupFps F).toFinset.card := (List.toFinset_card_of_nodup hnodupF).symm
    _ ≤ (entry.2.map createFingerprint).toFinset.card := by
        refine Finset.card_le_card ?_
        intro x hx
        rw [List.mem_toFinset] at hx ⊢
        exact hsubset x hx
    _ ≤ (entry.2.map createFingerprint).length := List.toFinset_card_le _
    _ = entry.2.length := List.length_map _ _

theorem toFixed2_bounds {q : ℚ} (h0 : 0 ≤ q) (h100 : q ≤ 100) :
    0 ≤ toFixed2 q ∧ toFixed2 q ≤ 100 := by
  unfold toFixed2
  have hlow : (0 : ℤ) ≤ round (q * 100) := by
    rw [round_eq]
    have : (0 : ℚ) ≤ q * 100 + 1 / 2 := by linarith
    exact Int.le_floor.mpr (by push_cast; linarith)
  have hhigh : round (q * 100) ≤ 10000 := by
    rw [round_eq]
    have : q * 100 + 1 / 2 < 10001 := by linarith
    have hlt : ⌊q * 100 + 1 / 2⌋ < 10001 := Int.floor_lt.mpr (by push_cast; linarith)
    omega
  constructor
  · have hcast : (0 : ℚ) ≤ ((round (q * 100) : ℤ) : ℚ) := by exact_mod_cast hlow
    linarith
  · have : ((round (q * 100) : ℤ) : ℚ) ≤ 10000 := by exact_mod_cast hhigh
    linarith

/-- C7 (corrected): `uniqueness_rate` is the rounded two-decimal value of the
ratio — the exact ratio is not retained (the JavaScript stores the `toFixed(2)`
string) — it is `0` when `total_detections = 0`, and it always lies between 0
and 100. -/
theorem uniqueness_rate_bounds_and_rounding (toolResults : List (String × List Alert))
    (hkeys : (toolResults.map Prod.fst).Nodup) (tool : String) (m : ToolMetrics)
    (hm : (tool, m) ∈ calculateEffectiveness toolResults (findOverlap toolResults)) :
    m.uniqueness_rate = (if 0 < m.total_detections then
        toFixed2 ((m.unique_detections : ℚ) / (m.total_detections : ℚ) * 100) else 0)
    ∧ 0 ≤ m.uniqueness_rate ∧ m.uniqueness_rate ≤ 100
    ∧ (m.total_detections = 0 → m.uniqueness_rate = 0) := by
  rcases List.mem_map.mp hm with ⟨entry, hentry, heq⟩
  have htool : entry.1 = tool := congrArg Prod.fst heq
  have hmval := congrArg Prod.snd heq
  simp only at hmval
  subst hmval
  have hle := uniqueDetections_le toolResults hkeys entry hentry
  refine ⟨rfl, ?_, ?_, ?_⟩
  · by_cases hpos : 0 < entry.2.length
    · show 0 ≤ (if 0 < entry.2.length then _ else _)
      rw [if_pos hpos]
      have hq0 : (0 : ℚ) ≤ (((findOverlap toolResults).unique.filter
          (fun u => u.detectedBy.head? == some entry.1)).length : ℚ) /
          (entry.2.length : ℚ) * 100 := by
        have := Nat.cast_nonneg (α := ℚ)
        positivity
      have hq100 : (((findOverlap toolResults).unique.filter
          (fun u => u.detectedBy.head? == some entry.1)).length : ℚ) /
          (entry.2.length : ℚ) * 100 ≤ 100 := by
        have hcast : (((findOverlap toolResults).unique.filter
            (fun u => u.detectedBy.head? == some entry.1)).length : ℚ) ≤
            (entry.2.length : ℚ) := by exact_mod_cast hle
        have hpos' : (0 : ℚ) < (entry.2.length : ℚ) := by exact_mod_cast hpos
        have hdiv : (((findOverlap toolResults).unique.filter
            (fun u => u.detectedBy.head? == some entry.1)).length : ℚ) /
            (entry.2.length : ℚ) ≤ 1 := (div_le_one hpos').mpr hcast
        linarith
      exact (toFixed2_bounds hq0 hq100).1
    · show 0 ≤ (if 0 < entry.2.length then _ else _)
      rw [if_neg hpos]
  · by_cases hpos : 0 < entry.2.length
    · show (if 0 < entry.2.length then _ else _) ≤ 100
      rw [if_pos hpos]
      have hq0 : (0 : ℚ) ≤ (((findOverlap toolResults).unique.filter
          (fun u => u.detectedBy.head? == some entry.1)).length : ℚ) /
          (entry.2.length : ℚ) * 100 := by positivity
      have hq100 : (((findOverlap toolResults).unique.filter
          (fun u => u.detectedBy.head? == some entry.1)).length : ℚ) /
          (entry.2.length : ℚ) * 100 ≤ 100 := by
        have hcast : (((findOverlap toolResults).unique.filter
            (fun u => u.detectedBy.head? == some entry.1)).length : ℚ) ≤
            (entry.2.length : ℚ) := by exact_mod_cast hle
        have hpos' : (0 : ℚ) < (entry.2.length : ℚ) := by exact_mod_cast hpos
        have hdiv : (((findOverlap toolResults).unique.filter
            (fun u => u.detectedBy.head? == some entry.1)).length : ℚ) /
            (entry.2.length : ℚ) ≤ 1 := (div_le_one hpos').mpr hcast
        linarith
      exact (toFixed2_bounds hq0 hq100).2
    · show (if 0 < entry.2.length then _ else _) ≤ 100
      rw [if_neg hpos]
      norm_num
  · intro hz
    have hz2 : entry.2.length = 0 := hz
    show (if 0 < entry.2.length then _ else _) = 0
    rw [if_neg (by omega)]

/-- Fixture for C7: tool A with one unique and two shared findings, tool B
with the two shared findings. -/
def trC7 : List (String × List Alert) :=
  [("A", [alertW1, alertW2, alertW3]), ("B", [alertW2, alertW3])]

/-- C7 counterexample: tool A has 3 detections of which 1 is unique; the stored
`uniqueness_rate` is the rounded value 33.33 (the `toFixed(2)` result), which
differs from the exact ratio 1/3·100 — the exact ratio is not retained. -/
theorem uniqueness_rate_rounded_counterexample :
    ((calculateEffectiveness trC7 (findOverlap trC7)).map
      (fun p => (p.1, p.2.total_detections, p.2.unique_detections, p.2.shared_detections))) =
      [("A", 3, 1, 2), ("B", 2, 0, 2)]
    ∧ ((calculateEffectiveness trC7 (findOverlap trC7)).map (fun p => p.2.uniqueness_rate)) =
      [(3333 : ℚ) / 100, 0]
    ∧ (3333 : ℚ) / 100 ≠ (1 : ℚ) / 3 * 100 := by
  refine ⟨by decide, ?_, by norm_num⟩
  have hshape : (calculateEffectiveness trC7 (findOverlap trC7)).map
      (fun p => p.2.uniqueness_rate) =
      [toFixed2 (((1 : ℕ) : ℚ) / ((3 : ℕ) : ℚ) * 100),
       toFixed2 (((0 : ℕ) : ℚ) / ((2 : ℕ) : ℚ) * 100)] := rfl
  rw [hshape]
  have h1 : toFixed2 (((1 : ℕ) : ℚ) / ((3 : ℕ) : ℚ) * 100) = (3333 : ℚ) / 100 := by
    unfold toFixed2
    push_cast
    norm_num [round_eq, Int.floor_eq_iff]
  have h2 : toFixed2 (((0 : ℕ) : ℚ) / ((2 : ℕ) : ℚ) * 100) = 0 := by
    unfold toFixed2
    push_cast
    norm_num [round_zero]
  rw [h1, h2]

/-- Fixture for C7's witness: a single tool with a single finding. -/
def trC7w : List (String × List Alert) := [("A", [alertW1])]

/-- Witness for C7's corrected statement at a concrete input. -/
theorem uniqueness_rate_bounds_and_rounding_instance :
    0 ≤ (ToolMetrics.mk 1 1 0
        (toFixed2 (((1 : ℕ) : ℚ) / ((1 : ℕ) : ℚ) * 100))).uniqueness_rate
    ∧ (ToolMetrics.mk 1 1 0
        (toFixed2 (((1 : ℕ) : ℚ) / ((1 : ℕ) : ℚ) * 100))).uniqueness_rate ≤ 100 :=
  ⟨(uniqueness_rate_bounds_and_rounding trC7w (by decide) "A"
      (ToolMetrics.mk 1 1 0 (toFixed2 (((1 : ℕ) : ℚ) / ((1 : ℕ) : ℚ) * 100)))
      (List.Mem.head _)).2.1,
   (uniqueness_rate_bounds_and_rounding trC7w (by decide) "A"
      (ToolMetrics.mk 1 1 0 (toFixed2 (((1 : ℕ) : ℚ) / ((1 : ℕ) : ℚ) * 100)))
      (List.Mem.head _)).2.2.1⟩

end MultiTool
